import Mathlib

/-!
# Verification of the Brother QL label printer control library

Shallow embedding of the core data model and algorithms of the
`brother_label_printer_control_ql` package: the label/model catalogs,
the threshold conversion, the PackBits raster-row compression round trip,
the instruction encoder (`BrotherQLRaster`), the stream decoder
(`chunker` / `match_opcode`), the status-frame parsers and the blocking
send state machine.  Byte strings are modelled as `List Nat` with values
below 256; fallible Python code is modelled with `Option` / `Except`.
-/

namespace BrotherQL

/-- Python exceptions that the modelled code can raise.  Only the
distinctions the control flow depends on are kept. -/
inductive PyExc where
  | nameError : PyExc
  | valueError : PyExc
  | brotherQLRasterError : PyExc
  | brotherQLUnsupportedCmd : PyExc
  | indexError : PyExc
  deriving DecidableEq, Repr

/-- `bytes([n])` from Python: fails with `ValueError` unless `0 ≤ n < 256`. -/
def byteOf (n : Nat) : Except PyExc Nat :=
  if n < 256 then .ok n else .error .valueError

/-- `struct.pack("<H", n)`: two little-endian bytes, fails if `n ≥ 2^16`. -/
def packUInt16LE (n : Nat) : Except PyExc (List Nat) :=
  if n < 65536 then .ok [n % 256, n / 256] else .error .valueError

/-- `struct.pack("<L", n)`: four little-endian bytes, fails if `n ≥ 2^32`. -/
def packUInt32LE (n : Nat) : Except PyExc (List Nat) :=
  if n < 4294967296 then
    .ok [n % 256, n / 256 % 256, n / 65536 % 256, n / 16777216 % 256]
  else .error .valueError

/-- Python `int(q)` on a real-valued quantity: truncation toward zero. -/
def ratTrunc (q : ℚ) : ℤ :=
  if q < 0 then ⌈q⌉ else ⌊q⌋

/-! ## Model and label catalogs (`models.py`, `labels/__init__.py`) -/

/-- `models.py` `Model` dataclass: per-model geometry and capability flags. -/
structure Model where
  identifier : String
  min_max_length_dots : Nat × Nat
  min_max_feed : Nat × Nat := (35, 1500)
  number_bytes_per_row : Nat := 90
  additional_offset_r : Nat := 0
  mode_setting : Bool := true
  cutting : Bool := true
  expanded_mode : Bool := true
  compression : Bool := true
  two_color : Bool := false
  deriving DecidableEq, Repr

/-- `Model.pixel_width` property. -/
def Model.pixel_width (m : Model) : Nat :=
  m.number_bytes_per_row * 8

/-- The `Models` enum of `models.py` (each member's `.value`). -/
def Models.QL500 : Model :=
  { identifier := "QL-500", min_max_length_dots := (295, 11811),
    compression := false, mode_setting := false, expanded_mode := false, cutting := false }

def Models.QL550 : Model :=
  { identifier := "QL-550", min_max_length_dots := (295, 11811),
    compression := false, mode_setting := false }

def Models.QL560 : Model :=
  { identifier := "QL-560", min_max_length_dots := (295, 11811),
    compression := false, mode_setting := false }

def Models.QL570 : Model :=
  { identifier := "QL-570", min_max_length_dots := (150, 11811),
    compression := false, mode_setting := false }

def Models.QL580N : Model :=
  { identifier := "QL-580N", min_max_length_dots := (150, 11811) }

def Models.QL650TD : Model :=
  { identifier := "QL-650TD", min_max_length_dots := (295, 11811) }

def Models.QL700 : Model :=
  { identifier := "QL-700", min_max_length_dots := (150, 11811),
    compression := false, mode_setting := false }

def Models.QL710W : Model :=
  { identifier := "QL-710W", min_max_length_dots := (150, 11811) }

def Models.QL720NW : Model :=
  { identifier := "QL-720NW", min_max_length_dots := (150, 11811) }

def Models.QL800 : Model :=
  { identifier := "QL-800", min_max_length_dots := (150, 11811),
    two_color := true, compression := false }

def Models.QL810W : Model :=
  { identifier := "QL-810W", min_max_length_dots := (150, 11811), two_color := true }

def Models.QL820NWB : Model :=
  { identifier := "QL-820NWB", min_max_length_dots := (150, 11811), two_color := true }

def Models.QL1050 : Model :=
  { identifier := "QL-1050", min_max_length_dots := (295, 35433),
    number_bytes_per_row := 162, additional_offset_r := 44 }

def Models.QL1060N : Model :=
  { identifier := "QL-1060N", min_max_length_dots := (295, 35433),
    number_bytes_per_row := 162, additional_offset_r := 44 }

def Models.PTP750W : Model :=
  { identifier := "PT-P750W", min_max_length_dots := (31, 14172), number_bytes_per_row := 16 }

def Models.PTP900W : Model :=
  { identifier := "PT-P900W", min_max_length_dots := (57, 28346), number_bytes_per_row := 70 }

/-- `labels/form_factor.py` `FormFactor` enum. -/
inductive FormFactor where
  | DIE_CUT
  | ENDLESS
  | ROUND_DIE_CUT
  | PTOUCH_ENDLESS
  deriving DecidableEq, Repr

/-- `labels/color.py` `Color` enum (referenced by `labels/__init__.py`). -/
inductive Color where
  | BLACK_WHITE
  | BLACK_RED_WHITE
  deriving DecidableEq, Repr

/-- `labels/__init__.py` `Label` dataclass.  `restricted_to_models` holds the
`.value` of the referenced `Models` enum members. -/
structure Label where
  identifier : String
  tape_size : Nat × Nat
  form_factor : FormFactor
  dots_total : Nat × Nat
  dots_printable : Nat × Nat
  offset_r : Nat
  feed_margin : Nat := 0
  restricted_to_models : List Model := []
  color : Color := Color.BLACK_WHITE
  deriving DecidableEq, Repr

/-- `Label.works_with_model`: `if not self.restricted_to_models: return False`;
then return `True` on the first `model == restricted_model.value`, else `False`. -/
def Label.works_with_model (l : Label) (model : Model) : Bool :=
  match l.restricted_to_models with
  | [] => false
  | restricted => restricted.any (fun restricted_model => model = restricted_model)

/-- The `L102` member of the `Labels` enum (a label restricted to two models). -/
def Labels.L102 : Label :=
  { identifier := "102", tape_size := (102, 0), form_factor := FormFactor.ENDLESS,
    dots_total := (1200, 0), dots_printable := (1164, 0), offset_r := 12,
    feed_margin := 35, restricted_to_models := [Models.QL1050, Models.QL1060N] }

/-- The `L62` member of the `Labels` enum (no model restriction). -/
def Labels.L62 : Label :=
  { identifier := "62", tape_size := (62, 0), form_factor := FormFactor.ENDLESS,
    dots_total := (732, 0), dots_printable := (696, 0), offset_r := 12, feed_margin := 35 }

/-! ## Threshold conversion (`labels/label_options.py`, `raster.py`) -/

/-- The black/white threshold computation shared by `LabelOptions.from_dict`
and `BrotherQLRaster.generate_instructions`:
`thresh = 100.0 - pct; thresh = min(255, max(0, int(thresh / 100.0 * 255)))`.
The float arithmetic is idealised as exact rational arithmetic; Python's
`int()` truncates toward zero (`ratTrunc`).  (At the default `pct = 70` the
float product is `76.4999…` and the exact value `76.5`; both truncate to 76.) -/
def threshold_level (pct : ℚ) : ℤ :=
  min 255 (max 0 (ratTrunc ((100 - pct) / 100 * 255)))

/-- `LabelOptions.from_dict` threshold field: `d.get("threshold", 70)` then
the conversion above.  `none` models an absent `"threshold"` key. -/
def LabelOptions.from_dict_threshold (t : Option ℚ) : ℤ :=
  threshold_level (t.getD 70)

/-! ## PackBits raster-row compression

The encoder side is the third-party `packbits.encode` call in
`add_raster_data`; the decoder is the inline loop in
`BrotherQLReader.analyse` (`reader.py`). -/

/-- Number of leading bytes of the list equal to `b`. -/
def runLen (b : Nat) : List Nat → Nat
  | [] => 0
  | c :: rest => if c = b then runLen b rest + 1 else 0

/-- Length of the maximal leading stretch containing no two adjacent equal
bytes (the bytes a PackBits encoder transmits as literals). -/
def litLen : List Nat → Nat
  | [] => 0
  | [_] => 1
  | a :: b :: rest => if a = b then 0 else 1 + litLen (b :: rest)

/-- Modelled from the spec: the compressor used by `add_raster_data` is the
third-party `packbits.encode`, which is not part of this repository.  Per the
spec (§4.2) it is a PackBits-style run-length encoding: a run of `n` identical
bytes (2 ≤ n ≤ 128) becomes the two bytes (two's-complement `-(n-1)`,
repeated byte), i.e. `(257 - n) :: b`; a stretch of `k` literal bytes
(1 ≤ k ≤ 128) becomes the count byte `k - 1` followed by the `k` bytes. -/
def packbits_encode : List Nat → List Nat
  | [] => []
  | b :: rest =>
    if 2 ≤ 1 + runLen b rest then
      (257 - min (1 + runLen b rest) 128) :: b ::
        packbits_encode (rest.drop (min (1 + runLen b rest) 128 - 1))
    else
      (min (litLen (b :: rest)) 128 - 1) ::
        ((b :: rest).take (min (litLen (b :: rest)) 128) ++
          packbits_encode (rest.drop (min (litLen (b :: rest)) 128 - 1)))
termination_by l => l.length
decreasing_by
  · simp; omega
  · simp; omega

/-- The decompression loop in `BrotherQLReader.analyse` (`reader.py`): a
do-while over the raster payload `rpl`.  Each iteration reads the count byte
`num`; if its bit 7 is set (`128 ≤ num` for a byte value) the next byte is
repeated `-(num - 256) + 1 = 257 - num` times, else the following `num + 1`
bytes are copied verbatim (Python slicing truncates silently); the loop exits
once the index reaches the end.  `none` models the `IndexError` the Python
code raises on an out-of-range access — in particular on an empty payload. -/
def packbits_decode : List Nat → Option (List Nat)
  | [] => none
  | num :: rest =>
    if 128 ≤ num then
      match rest with
      | [] => none
      | b :: rest2 =>
        if rest2.isEmpty then some (List.replicate (257 - num) b)
        else (packbits_decode rest2).map (fun row => List.replicate (257 - num) b ++ row)
    else
      if (rest.drop (num + 1)).isEmpty then some (rest.take (num + 1))
      else (packbits_decode (rest.drop (num + 1))).map (fun row => rest.take (num + 1) ++ row)
termination_by l => l.length
decreasing_by
  · simp; omega
  · simp; omega

/-! ## Opcode table and stream decoder (`control/op_codes.py`, `constants.py`,
`reader.py`) -/

/-- `control/op_codes.py` `OpCode` dataclass.  `constants.py` holds the same
21 entries as a dict `signature ↦ (name, following_bytes, description)` in
the same (insertion) order. -/
structure OpCode where
  signature : List Nat
  name : String
  following_bytes : Int
  description : String
  deriving DecidableEq, Repr

/-- The `OPCODES` table. -/
def OPCODES : List OpCode := [
  ⟨[0x00], "preamble", -1, "Preamble, 200-300x 0x00 to clear comamnd buffer"⟩,
  ⟨[0x4D], "compression", 1, ""⟩,
  ⟨[0x67], "raster QL", -1, ""⟩,
  ⟨[0x47], "raster P-touch", -1, ""⟩,
  ⟨[0x77], "2-color raster QL", -1, ""⟩,
  ⟨[0x5a], "zero raster", 0, "empty raster line"⟩,
  ⟨[0x0C], "print", 0, "print intermediate page"⟩,
  ⟨[0x1A], "print", 0, "print final page"⟩,
  ⟨[0x1b, 0x40], "init", 0, "initialization"⟩,
  ⟨[0x1b, 0x69, 0x61], "mode setting", 1, ""⟩,
  ⟨[0x1b, 0x69, 0x21], "automatic status", 1, ""⟩,
  ⟨[0x1b, 0x69, 0x7A], "media/quality", 10, "print-media and print-quality"⟩,
  ⟨[0x1b, 0x69, 0x4D], "various", 1, "Auto cut flag in bit 7"⟩,
  ⟨[0x1b, 0x69, 0x41], "cut-every", 1, "cut every n-th page"⟩,
  ⟨[0x1b, 0x69, 0x4B], "expanded", 1, ""⟩,
  ⟨[0x1b, 0x69, 0x64], "margins", 2, ""⟩,
  ⟨[0x1b, 0x69, 0x55, 0x77, 0x01], "amedia", 127, "Additional media information command"⟩,
  ⟨[0x1b, 0x69, 0x55, 0x4A], "jobid", 14, "Job ID setting command"⟩,
  ⟨[0x1b, 0x69, 0x58, 0x47], "request_config", 0, "Request transmission of .ini config file of printer"⟩,
  ⟨[0x1b, 0x69, 0x53], "status request", 0, "A status information request sent to the printer"⟩,
  ⟨[0x80, 0x20, 0x42], "status response", 29, "A status response received from the printer"⟩]

/-- The list comprehension in `match_opcode`: all table entries whose
signature is a prefix of `data` (`data.startswith(opcode)`). -/
def matching_opcodes (data : List Nat) : List OpCode :=
  OPCODES.filter (fun op => op.signature.isPrefixOf data)

/-- `match_opcode` (`control/op_codes.py` and `reader.py`): asserts that
exactly one signature matches.  `none` models the `AssertionError`. -/
def match_opcode (data : List Nat) : Option OpCode :=
  match matching_opcodes data with
  | [op] => some op
  | _ => none

/-- The extra instruction bytes beyond the signature, per `chunker`
(`reader.py`): a positive `following_bytes` count is taken as is; the QL
raster opcodes read the length byte `data[2]`; the P-touch raster opcode
reads a 2-byte little-endian length from `data[1]`, `data[2]`; everything
else has no payload.  `none` models the `IndexError` of an out-of-range
`data[i]` access (which `chunker` does not catch). -/
def chunker_extra (op : OpCode) (data : List Nat) : Option Nat :=
  if 0 < op.following_bytes then some op.following_bytes.toNat
  else if op.name = "raster QL" ∨ op.name = "2-color raster QL" then
    (data.get? 2).map (fun b => b + 2)
  else if op.name = "raster P-touch" then
    match data.get? 1, data.get? 2 with
    | some b1, some b2 => some (b1 + b2 * 256 + 2)
    | _, _ => none
  else some 0

/-- `chunker` (`reader.py`) with `raise_exception=False` (as used by
`BrotherQLReader.analyse`): repeatedly match the opcode at the head of the
stream and slice off `num_bytes = len(opcode) + extra` as one instruction;
when no unique opcode matches (the bare `except:` also swallows the
`AssertionError` of an ambiguous match), log a warning and skip one byte.
Returns the list of yielded instruction slices.  Every table signature is
non-empty, so dropping `num_bytes - 1` bytes of the tail is Python's
`data = data[num_bytes:]`. -/
def chunker : List Nat → Option (List (List Nat))
  | [] => some []
  | b :: rest =>
    match match_opcode (b :: rest) with
    | none => chunker rest
    | some op =>
      match chunker_extra op (b :: rest) with
      | none => none
      | some extra =>
        (chunker (rest.drop (op.signature.length + extra - 1))).map
          (fun instrs => (b :: rest).take (op.signature.length + extra) :: instrs)
termination_by l => l.length
decreasing_by
  · simp
  · simp; omega

/-- How `chunker` re-frames one encoder-appended instruction: the 200-byte
preamble (the only appended unit starting with a zero byte) is yielded as
200 single-byte `preamble` chunks, every other instruction is yielded
whole. -/
def explode_unit (u : List Nat) : List (List Nat) :=
  if u.head? = some 0 then List.replicate u.length [0] else [u]

/-- The shapes of the instruction units that `BrotherQLRaster` appends:
exactly the byte strings the methods of the encoder write per call.  Each
shape carries the framing facts `chunker` relies on (for the raster units,
that the length field equals the row length). -/
inductive GoodUnit : List Nat → Prop where
  | preamble : GoodUnit (List.replicate 200 0)
  | switch_mode : GoodUnit [0x1b, 0x69, 0x61, 0x01]
  | init : GoodUnit [0x1b, 0x40]
  | status : GoodUnit [0x1b, 0x69, 0x53]
  | media (payload : List Nat) (h : payload.length = 10) :
      GoodUnit ([0x1b, 0x69, 0x7A] ++ payload)
  | autocut (b : Nat) : GoodUnit [0x1b, 0x69, 0x4D, b]
  | cut_every (b : Nat) : GoodUnit [0x1b, 0x69, 0x41, b]
  | expanded (b : Nat) : GoodUnit [0x1b, 0x69, 0x4B, b]
  | margins (b1 b2 : Nat) : GoodUnit [0x1b, 0x69, 0x64, b1, b2]
  | compression (b : Nat) : GoodUnit [0x4D, b]
  | raster_ql (n : Nat) (row : List Nat) (h : row.length = n) :
      GoodUnit ([0x67, 0x00, n] ++ row)
  | raster_two (c n : Nat) (row : List Nat) (h : row.length = n) :
      GoodUnit ([0x77, c, n] ++ row)
  | raster_pt (lo hi : Nat) (row : List Nat) (h : row.length = lo + hi * 256) :
      GoodUnit ([0x47, lo, hi] ++ row)
  | print_last : GoodUnit [0x1A]

/-! ## Instruction encoder (`raster.py` `BrotherQLRaster`)

`raster.py` looks the selected model up in capability tables
(`modesetting`, `compressionsupport`, `cuttingsupport`, `expandedmode`,
`two_color_support`, `number_bytes_per_row`) imported from a
`devicedependent` module that is not part of this repository; membership of
the model in each table is modelled as a Boolean capability record (the
spec's model capability flags, §3).  The byte stream `self.data` is
modelled as the list of instruction units appended by the successive
method calls; the buffer itself is their concatenation. -/

/-- Modelled from the spec: per-model capability flags and geometry as used
by `BrotherQLRaster` (`devicedependent` is missing from the source tree).
`identifier_pt` is `self.model.startswith("PT")`. -/
structure ModelCaps where
  modesetting : Bool
  cuttingsupport : Bool
  expandedmode : Bool
  compressionsupport : Bool
  two_color_support : Bool
  number_bytes_per_row : Nat
  identifier_pt : Bool
  deriving DecidableEq, Repr

/-- Modelled from the spec: the `label_type_specs[label]` record consumed by
`generate_instructions` (`devicedependent` is missing from the source tree):
form-factor kind, tape size, feed margin.  The remaining geometry fields
(`dots_printable`, `right_margin_dots`) only affect the image compositing,
which enters this model as finished bit-planes. -/
structure LabelSpec where
  kind : FormFactor
  tape_size : Nat × Nat
  feed_margin : Nat
  deriving DecidableEq, Repr

/-- The job options read from `**kwargs` by `generate_instructions` that
influence the emitted instructions (`dither`, `threshold` and `rotate` only
affect the pixel data of the bit-planes). -/
structure JobOptions where
  cut : Bool := true
  compress : Bool := false
  red : Bool := false
  dpi_600 : Bool := false
  hq : Bool := true
  deriving DecidableEq, Repr

/-- The mutable `BrotherQLRaster` attributes read or written by the
instruction methods.  `mtype` / `mwidth` / `mlength` are `None` until their
setters run (the setters store `value & 0xFF`). -/
structure RasterState where
  mtype : Option Nat := none
  mwidth : Option Nat := none
  mlength : Option Nat := none
  pquality : Bool := true
  page_number : Nat := 0
  cut_at_end : Bool := true
  dpi_600 : Bool := false
  two_color_printing : Bool := false
  compression : Bool := false
  exception_on_warning : Bool := false
  deriving DecidableEq, Repr

/-- One finished monochrome bit-plane as handed to `add_raster_data`:
`width` dots (`width/8` bytes per row) and the raster rows top to bottom.
`add_raster_data` slices the raw frame into rows of `width // 8` bytes; the
plane is modelled already row-sliced, each row carrying exactly
`width // 8` bytes of the frame. -/
structure RasterImage where
  width : Nat
  rows : List (List Nat)
  deriving DecidableEq, Repr


/-- `BrotherQLRaster._warn` / `_unsupported`: raise `kind` when
`exception_on_warning` is set, otherwise only log a warning. -/
def RasterState.warn (st : RasterState) (kind : PyExc) : Except PyExc Unit :=
  if st.exception_on_warning then .error kind else .ok ()

/-- The `try: ... except BrotherQLUnsupportedCmd: pass` wrapper used by
`generate_instructions` around capability-gated calls: a raised
`BrotherQLUnsupportedCmd` is swallowed, leaving the state unchanged and
appending nothing. -/
def catch_unsupported (st : RasterState) (x : Except PyExc (RasterState × List (List Nat))) :
    Except PyExc (RasterState × List (List Nat)) :=
  match x with
  | .error .brotherQLUnsupportedCmd => .ok (st, [])
  | other => other

/-- `add_switch_mode`: gated on mode-setting support. -/
def add_switch_mode (caps : ModelCaps) (st : RasterState) :
    Except PyExc (RasterState × List (List Nat)) :=
  if ¬caps.modesetting then
    (st.warn .brotherQLUnsupportedCmd).map (fun _ => (st, []))
  else .ok (st, [[0x1b, 0x69, 0x61, 0x01]])

/-- `add_invalidate`: 200 zero bytes. -/
def add_invalidate (st : RasterState) : Except PyExc (RasterState × List (List Nat)) :=
  .ok (st, [List.replicate 200 0])

/-- The `add_initialize` method: resets `page_number` and emits `1B 40`. -/
def add_initialize_instr (st : RasterState) : Except PyExc (RasterState × List (List Nat)) :=
  .ok ({ st with page_number := 0 }, [[0x1b, 0x40]])

/-- `add_status_information`: `1B 69 53`. -/
def add_status_information (st : RasterState) : Except PyExc (RasterState × List (List Nat)) :=
  .ok (st, [[0x1b, 0x69, 0x53]])

/-- `add_media_and_quality`: `1B 69 7A`, a validity/quality flags byte,
three media bytes (`0x00` when unset), the 4-byte little-endian raster
number, a page-continuation byte and one reserved byte. -/
def add_media_and_quality (st : RasterState) (rnumber : Nat) :
    Except PyExc (RasterState × List (List Nat)) :=
  (packUInt32LE rnumber).map (fun rn4 =>
    (st, [[0x1b, 0x69, 0x7A,
      0x80 |||((if st.mtype.isSome then 1 else 0) <<< 1) |||
        ((if st.mwidth.isSome then 1 else 0) <<< 2) |||
        ((if st.mlength.isSome then 1 else 0) <<< 3) |||
        ((if st.pquality then 1 else 0) <<< 6),
      st.mtype.getD 0, st.mwidth.getD 0, st.mlength.getD 0] ++ rn4 ++
      [if st.page_number = 0 then 0 else 1, 0x00]]))

/-- `add_autocut`: gated on cutting support; `1B 69 4D` + flag byte. -/
def add_autocut (caps : ModelCaps) (st : RasterState) (autocut : Bool) :
    Except PyExc (RasterState × List (List Nat)) :=
  if ¬caps.cuttingsupport then
    (st.warn .brotherQLUnsupportedCmd).map (fun _ => (st, []))
  else .ok (st, [[0x1b, 0x69, 0x4D, (if autocut then 1 else 0) <<< 6]])

/-- `add_cut_every`: gated on cutting support; `1B 69 41` + `n & 0xFF`. -/
def add_cut_every (caps : ModelCaps) (st : RasterState) (n : Nat) :
    Except PyExc (RasterState × List (List Nat)) :=
  if ¬caps.cuttingsupport then
    (st.warn .brotherQLUnsupportedCmd).map (fun _ => (st, []))
  else .ok (st, [[0x1b, 0x69, 0x41, n % 256]])

/-- `add_expanded_mode`: gated on expanded-mode support, and on two-color
support when two-color printing is requested; `1B 69 4B` + flags byte. -/
def add_expanded_mode (caps : ModelCaps) (st : RasterState) :
    Except PyExc (RasterState × List (List Nat)) :=
  if ¬caps.expandedmode then
    (st.warn .brotherQLUnsupportedCmd).map (fun _ => (st, []))
  else if st.two_color_printing ∧ ¬caps.two_color_support then
    (st.warn .brotherQLUnsupportedCmd).map (fun _ => (st, []))
  else .ok (st, [[0x1b, 0x69, 0x4B,
    ((if st.cut_at_end then 1 else 0) <<< 3) |||
      ((if st.dpi_600 then 1 else 0) <<< 6) |||
      (if st.two_color_printing then 1 else 0)]])

/-- `add_margins`: `1B 69 64` + 2-byte little-endian dot count. -/
def add_margins (st : RasterState) (dots : Nat) :
    Except PyExc (RasterState × List (List Nat)) :=
  (packUInt16LE dots).map (fun d2 => (st, [[0x1b, 0x69, 0x64] ++ d2]))

/-- `add_compression`: gated on compression support (returning before any
state change when unsupported); otherwise records `_compression` and emits
`4D` + flag byte (`compression << 1`). -/
def add_compression (caps : ModelCaps) (st : RasterState) (compression : Bool) :
    Except PyExc (RasterState × List (List Nat)) :=
  if ¬caps.compressionsupport then
    (st.warn .brotherQLUnsupportedCmd).map (fun _ => (st, []))
  else .ok ({ st with compression := compression },
    [[0x4D, (if compression then 1 else 0) <<< 1]])

/-- One raster line of `add_raster_data`: the row is PackBits-compressed
when `_compression` is on; QL framing is `67 00` (monochrome) or
`77 01`/`77 02` (two-color lane) + 1-byte length + row (`bytes([translen])`
raises `ValueError` beyond 255); P-touch framing is `47` + 2-byte
little-endian length + row.  `lane = 0` is the monochrome case. -/
def raster_line (caps : ModelCaps) (compression : Bool) (lane : Nat) (row : List Nat) :
    Except PyExc (List Nat) :=
  let tx := if compression then packbits_encode row else row
  if caps.identifier_pt then
    (byteOf (tx.length / 256)).map (fun hi => [0x47, tx.length % 256, hi] ++ tx)
  else
    (byteOf tx.length).map (fun t =>
      if lane = 0 then [0x67, 0x00, t] ++ tx else [0x77, lane, t] ++ tx)

/-- The row loop of `add_raster_data` for a single plane. -/
def raster_lines_mono (caps : ModelCaps) (compression : Bool) :
    List (List Nat) → Except PyExc (List (List Nat))
  | [] => .ok []
  | row :: rows => do
    let u ← raster_line caps compression 0 row
    let us ← raster_lines_mono caps compression rows
    .ok (u :: us)

/-- The row loop of `add_raster_data` with a second image: per raster line,
first the lane-1 (black) row, then the lane-2 (red) row. -/
def raster_lines_two (caps : ModelCaps) (compression : Bool) :
    List (List Nat × List Nat) → Except PyExc (List (List Nat))
  | [] => .ok []
  | (row1, row2) :: rows => do
    let u1 ← raster_line caps compression 1 row1
    let u2 ← raster_line caps compression 2 row2
    let us ← raster_lines_two caps compression rows
    .ok (u1 :: u2 :: us)

/-- `add_raster_data`: checks the image width against the model's pixel
width and, for two-color jobs, that both planes have identical dimensions
(`BrotherQLRasterError` otherwise), then emits one framed instruction per
raster line (interleaving the two planes line by line). -/
def add_raster_data (caps : ModelCaps) (st : RasterState) (image : RasterImage)
    (second_image : Option RasterImage) :
    Except PyExc (RasterState × List (List Nat)) :=
  if image.width ≠ caps.number_bytes_per_row * 8 then .error .brotherQLRasterError
  else match second_image with
    | none => (raster_lines_mono caps st.compression image.rows).map (fun us => (st, us))
    | some im2 =>
      if image.width ≠ im2.width ∨ image.rows.length ≠ im2.rows.length then
        .error .brotherQLRasterError
      else
        (raster_lines_two caps st.compression (image.rows.zip im2.rows)).map
          (fun us => (st, us))

/-- `add_print()`: always called with the default `last_page=True` by
`generate_instructions`, emitting `1A` (end of file). -/
def add_print (st : RasterState) : Except PyExc (RasterState × List (List Nat)) :=
  .ok (st, [[0x1A]])

/-- The bit-planes the image compositing part of `generate_instructions`
derives from one input image: `black` is the thresholded/dithered plane;
`red` is the HSV-separated red plane, used only when printing in red (both
planes are derived from the same source image, hence equal in size). -/
structure CompositedImage where
  black : RasterImage
  red : RasterImage
  deriving DecidableEq, Repr

/-- The media-type/width/length selection by label kind in
`generate_instructions` (the three setters store `value & 0xFF`). -/
def set_media_by_kind (label_specs : LabelSpec) (st : RasterState) : RasterState :=
  match label_specs.kind with
  | FormFactor.DIE_CUT | FormFactor.ROUND_DIE_CUT =>
    { st with
      mtype := some (0x0B % 256)
      mwidth := some (label_specs.tape_size.1 % 256)
      mlength := some (label_specs.tape_size.2 % 256) }
  | FormFactor.ENDLESS =>
    { st with
      mtype := some (0x0A % 256)
      mwidth := some (label_specs.tape_size.1 % 256)
      mlength := some (0 % 256) }
  | FormFactor.PTOUCH_ENDLESS =>
    { st with
      mtype := some (0x00 % 256)
      mwidth := some (label_specs.tape_size.1 % 256)
      mlength := some (0 % 256) }

/-- The per-image tail of `generate_instructions`: status request, media
selection by label kind, media/quality, optional autocut + cut-every-1,
expanded mode, margins, optional compression-enable, raster data, final
print opcode — each capability-gated call wrapped in
`try: ... except BrotherQLUnsupportedCmd: pass`. -/
def encode_image (caps : ModelCaps) (label_specs : LabelSpec) (opts : JobOptions)
    (st : RasterState) (im : CompositedImage) :
    Except PyExc (RasterState × List (List Nat)) := do
  let (st, u1) ← add_status_information st
  let st := { set_media_by_kind label_specs st with pquality := opts.hq }
  let (st, u2) ← add_media_and_quality st im.black.rows.length
  let (st, u3) ← catch_unsupported st (do
    if opts.cut then
      let (st, a) ← add_autocut caps st true
      let (st, b) ← add_cut_every caps st 1
      .ok (st, a ++ b)
    else .ok (st, []))
  let st :=
    { st with
      dpi_600 := opts.dpi_600
      cut_at_end := opts.cut
      two_color_printing := opts.red }
  let (st, u4) ← catch_unsupported st (add_expanded_mode caps st)
  let (st, u5) ← add_margins st label_specs.feed_margin
  let (st, u6) ← catch_unsupported st (do
    if opts.compress then add_compression caps st true
    else .ok (st, []))
  let (st, u7) ←
    if opts.red then add_raster_data caps st im.black (some im.red)
    else add_raster_data caps st im.black none
  let (st, u8) ← add_print st
  .ok (st, u1 ++ u2 ++ u3 ++ u4 ++ u5 ++ u6 ++ u7 ++ u8)

/-- The image loop of `generate_instructions`, collecting the per-image
instruction blocks. -/
def encode_images (caps : ModelCaps) (label_specs : LabelSpec) (opts : JobOptions) :
    RasterState → List CompositedImage →
      Except PyExc (RasterState × List (List (List Nat)))
  | st, [] => .ok (st, [])
  | st, im :: ims => do
    let (st, block) ← encode_image caps label_specs opts st im
    let (st, blocks) ← encode_images caps label_specs opts st ims
    .ok (st, block :: blocks)

/-- The instruction units produced by one `generate_instructions` job:
the preamble units appended before the image loop and one instruction block
per image. -/
structure GeneratedJob where
  preamble_units : List (List Nat)
  image_blocks : List (List (List Nat))
  deriving DecidableEq, Repr

/-- All instruction units of the job in order; `self.data` is their
concatenation. -/
def GeneratedJob.units (j : GeneratedJob) : List (List Nat) :=
  j.preamble_units ++ j.image_blocks.flatten

/-- `generate_instructions`: red-on-unsupported-model check, optional mode
switch, invalidate, initialize, optional mode switch again, then the
per-image sequence.  The image compositing (rotation, scaling, thresholding,
HSV color separation) is outside this model: the images enter as finished
bit-planes.  Uncaught errors (`BrotherQLRasterError` of a bad plane width,
`BrotherQLUnsupportedCmd` of a red job without two-color support, strict-mode
gate failures that no `try` swallows) propagate to the caller. -/
def generate_instructions (caps : ModelCaps) (label_specs : LabelSpec) (opts : JobOptions)
    (st : RasterState) (images : List CompositedImage) :
    Except PyExc (RasterState × GeneratedJob) := do
  if opts.red ∧ ¬caps.two_color_support then .error .brotherQLUnsupportedCmd
  else
    let (st, p1) ← catch_unsupported st (add_switch_mode caps st)
    let (st, p2) ← add_invalidate st
    let (st, p3) ← add_initialize_instr st
    let (st, p4) ← catch_unsupported st (add_switch_mode caps st)
    let (st, blocks) ← encode_images caps label_specs opts st images
    .ok (st, ⟨p1 ++ p2 ++ p3 ++ p4, blocks⟩)

/-! ## Concrete jobs used as witnesses -/

/-- QL-570 capabilities (`models.py`): no mode setting, cutting, expanded
mode, no compression support, no two-color, 90 bytes per row. -/
def caps_QL570 : ModelCaps :=
  ⟨false, true, true, false, false, 90, false⟩

/-- QL-820NWB capabilities (`models.py`): everything supported including
two-color printing, 90 bytes per row. -/
def caps_QL820NWB : ModelCaps :=
  ⟨true, true, true, true, true, 90, false⟩

/-- The 62 mm endless label's spec fields used by the encoder. -/
def label62_spec : LabelSpec := ⟨FormFactor.ENDLESS, (62, 0), 35⟩

/-- A 720-dot-wide two-row test image with black and red planes. -/
def sample_image : CompositedImage :=
  ⟨⟨720, [List.replicate 90 0x55, List.replicate 90 0]⟩,
    ⟨720, [List.replicate 90 0, List.replicate 90 0xAA]⟩⟩

/-- A two-image, two-color job on the QL-820NWB. -/
def sample_two_color_result : RasterState × GeneratedJob :=
  match generate_instructions caps_QL820NWB label62_spec { red := true } {}
      [sample_image, sample_image] with
  | .ok r => r
  | .error _ => ({}, ⟨[], []⟩)

def sample_job : GeneratedJob := sample_two_color_result.2

/-- A single-image monochrome job on the QL-570. -/
def sample_mono_result : RasterState × GeneratedJob :=
  match generate_instructions caps_QL570 label62_spec {} {} [sample_image] with
  | .ok r => r
  | .error _ => ({}, ⟨[], []⟩)

def sample_mono_job : GeneratedJob := sample_mono_result.2

/-- A strict-mode (`exception_on_warning=True`) job requesting compression
on the compression-less QL-570. -/
def strict_compress_attempt : Except PyExc (RasterState × GeneratedJob) :=
  generate_instructions caps_QL570 label62_spec { compress := true }
    { exception_on_warning := true } [sample_image]


/-! ## Status-frame parsing (`control/response.py`, `control/errors.py`,
`reader.py`) and the blocking send (`backends/abstract.py`) -/

/-- One member of the `RespErrorInformation1` / `RespErrorInformation2`
`IntEnum`s: bit index and member name. -/
structure RespError where
  value : Nat
  name : String
  deriving DecidableEq, Repr

/-- `RespErrorInformation1` members, in declaration order. -/
def RESP_ERROR_INFORMATION_1 : List RespError := [
  ⟨0, "NO_MEDIA_WHEN_PRINTING"⟩, ⟨1, "END_OF_MEDIA"⟩, ⟨2, "TAPE_CUTTER_JAM"⟩,
  ⟨3, "NOT_USED"⟩, ⟨4, "MAIN_UNIT_IN_USE"⟩, ⟨5, "PRINTER_TURNED_OFF"⟩,
  ⟨6, "HIGH_VOLTAGE_ADAPTER"⟩, ⟨7, "FAN_DOESNT_WORK"⟩]

/-- `RespErrorInformation2` members, in declaration order. -/
def RESP_ERROR_INFORMATION_2 : List RespError := [
  ⟨0, "REPLACE_MEDIA_ERROR"⟩, ⟨1, "EXPANSION_BUFFER_FULL"⟩,
  ⟨2, "TRANSMISSION_COMMUNICATION_ERROR"⟩, ⟨3, "COMMUNICATION_BUFFER_FULL"⟩,
  ⟨4, "COVER_OPENED_WHILE_PRINTING"⟩, ⟨5, "CANCEL_KEY"⟩,
  ⟨6, "MEDIA_CANNOT_BE_FED"⟩, ⟨7, "SYSTEM_ERROR"⟩]

/-- `is_present`: `bool(error_info & (1 << self.value))`. -/
def RespError.is_present (e : RespError) (error_info : Nat) : Bool :=
  (error_info &&& (1 <<< e.value)) != 0

/-- `check_for_error`: iterate the members in declaration order and return
the FIRST one whose bit is set, `None` otherwise. -/
def check_for_error (members : List RespError) (error_info : Nat) : Option RespError :=
  members.find? (fun e => e.is_present error_info)

/-- `PrinterResponse` (`control/response.py`).  The enum-typed fields keep
the raw byte: Python `IntEnum` members compare equal to their integer
values, and an unknown byte is left in place as a plain `int`. -/
structure PrinterResponse where
  status_type : Nat
  phase_type : Nat
  media_type : Nat
  media_width : Nat
  media_length : Nat
  errors : List String
  deriving DecidableEq, Repr

/-- The walrus guard `if error1 := RespErrorInformationN.check_for_error(x):`
of `PrinterResponse.from_bytes`: the branch is taken only when the returned
enum member is *truthy* — an `IntEnum` member with value 0 (bit 0) is falsy
in Python, so a bit-0 error is found and then dropped. -/
def walrus_error_name (found : Option RespError) : List String :=
  match found with
  | some e => if e.value ≠ 0 then [e.name] else []
  | none => []

/-- `PrinterResponse.from_bytes`: `NameError` when fewer than 32 bytes
arrive or the 3-byte header is not `80 20 42`; otherwise the fixed-offset
fields, with at most one error name appended per bitmap (see
`check_for_error` and `walrus_error_name`). -/
def PrinterResponse.from_bytes (data : List Nat) : Except PyExc PrinterResponse :=
  if data.length < 32 then .error .nameError
  else if data.take 3 ≠ [0x80, 0x20, 0x42] then .error .nameError
  else
    .ok {
      status_type := data.getD 18 0
      phase_type := data.getD 19 0
      media_type := data.getD 11 0
      media_width := data.getD 10 0
      media_length := data.getD 17 0
      errors := walrus_error_name (check_for_error RESP_ERROR_INFORMATION_1 (data.getD 8 0)) ++
        walrus_error_name (check_for_error RESP_ERROR_INFORMATION_2 (data.getD 9 0)) }

/-- `RESP_ERROR_INFORMATION_1_DEF` of `constants.py` (used by the legacy
`interpret_response` in `reader.py`), in insertion order. -/
def RESP_ERROR_INFORMATION_1_DEF : List (Nat × String) := [
  (0, "No media when printing"), (1, "End of media (die-cut size only)"),
  (2, "Tape cutter jam"), (3, "Not used"),
  (4, "Main unit in use (QL-560/650TD/1050)"), (5, "Printer turned off"),
  (6, "High-voltage adapter (not used)"), (7, "Fan doesn't work (QL-1050/1060N)")]

/-- `RESP_ERROR_INFORMATION_2_DEF` of `constants.py`, in insertion order. -/
def RESP_ERROR_INFORMATION_2_DEF : List (Nat × String) := [
  (0, "Replace media error"), (1, "Expansion buffer full error"),
  (2, "Transmission / Communication error"),
  (3, "Communication buffer full error (not used)"),
  (4, "Cover opened while printing (Except QL-500)"), (5, "Cancel key (not used)"),
  (6, "Media cannot be fed (also when the media end is detected)"), (7, "System error")]

/-- The error-collection loops of `interpret_response` (`reader.py`): the
name of EVERY set bit of both bitmaps, in declaration order. -/
def interpret_response_errors (error_info_1 error_info_2 : Nat) : List String :=
  (RESP_ERROR_INFORMATION_1_DEF.filter
      (fun e => (error_info_1 &&& (1 <<< e.1)) != 0)).map (fun e => e.2) ++
    (RESP_ERROR_INFORMATION_2_DEF.filter
      (fun e => (error_info_2 &&& (1 <<< e.1)) != 0)).map (fun e => e.2)

/-- `control/outcome.py` `PrintOutcome`. -/
inductive PrintOutcome where
  | UNKNOWN
  | SENT
  | PRINTED
  | ERROR
  deriving DecidableEq, Repr

/-- `control/status.py` `SendStatus`. -/
structure SendStatus where
  instructions_sent : Bool := true
  outcome : PrintOutcome := PrintOutcome.UNKNOWN
  printer_state : Option PrinterResponse := none
  did_print : Bool := false
  ready_for_next_job : Bool := false
  deriving DecidableEq, Repr

/-- The blocking poll loop of `BaseBrotherQLBackend.send`
(`backends/abstract.py`).  The wall-clock deadline is abstracted as the
finite list of values the successive `self.read()` calls return before the
10-second deadline elapses (exhausting the list is reaching the deadline).
An empty read sleeps 5 ms and continues; a non-empty read is parsed with
`PrinterResponse.from_bytes`; only a `ValueError` is caught and logged
(`except ValueError:`) — any other exception (in particular the `NameError`
that `from_bytes` actually raises) propagates out of `send`.  On a parsed
frame: any reported error sets outcome `ERROR` and breaks; status type
`printing completed` (0x01) sets `did_print` and outcome `PRINTED`;
`phase change` (0x06) with phase `waiting to receive` (0x00) sets
`ready_for_next_job`; the loop breaks once both flags hold. -/
def poll_loop (status : SendStatus) : List (List Nat) → Except PyExc SendStatus
  | [] => .ok status
  | data :: reads =>
    if data.isEmpty then poll_loop status reads
    else
      match PrinterResponse.from_bytes data with
      | .error e => if e = .valueError then poll_loop status reads else .error e
      | .ok result =>
        let status := { status with printer_state := some result }
        if result.errors ≠ [] then .ok { status with outcome := PrintOutcome.ERROR }
        else
          let status :=
            if result.status_type = 0x01 then
              { status with
                did_print := true
                outcome := PrintOutcome.PRINTED }
            else status
          let status :=
            if result.status_type = 0x06 ∧ result.phase_type = 0x00 then
              { status with ready_for_next_job := true }
            else status
          if status.did_print ∧ status.ready_for_next_job then .ok status
          else poll_loop status reads

/-- `BaseBrotherQLBackend.send`: the write is modelled as succeeding (a
transport failure is out of scope); outcome is set to `SENT` right after
the write; non-blocking mode returns immediately, blocking mode polls. -/
def send (instructions : List Nat) (blocking : Bool) (reads : List (List Nat)) :
    Except PyExc SendStatus :=
  let status : SendStatus := { outcome := PrintOutcome.SENT }
  if ¬blocking then .ok status
  else poll_loop status reads

/-- A 32-byte status frame with the valid header whose error-information
byte 1 (offset 8) has bits 0 and 1 set: two simultaneously active error
conditions. -/
def frame_two_errors : List Nat :=
  [0x80, 0x20, 0x42, 0, 0, 0, 0, 0, 0x03, 0] ++ List.replicate 22 0

end BrotherQL

namespace BrotherQL

/-! # Theorems -/

/-- Helper: `works_with_model` in equational form. -/
theorem works_with_model_eq (l : Label) (m : Model) :
    l.works_with_model m =
      (decide (l.restricted_to_models ≠ []) &&
        l.restricted_to_models.any (fun r => m = r)) := by
  unfold Label.works_with_model
  match h : l.restricted_to_models with
  | [] => simp
  | a :: rest => simp

/-- **C3**: for every label and model, `works_with_model` returns `true`
exactly when the label's `restricted_to_models` list is non-empty *and* the
model is a member of it.  In particular a non-empty restriction list acts as
a membership test, and an empty restriction list means "works with no model"
(not "always allowed"). -/
theorem works_with_model_iff (l : Label) (m : Model) :
    l.works_with_model m = true ↔
      l.restricted_to_models ≠ [] ∧ m ∈ l.restricted_to_models := by
  rw [works_with_model_eq]
  simp only [Bool.and_eq_true, decide_eq_true_eq, List.any_eq_true]
  constructor
  · rintro ⟨hne, r, hr, hmr⟩
    exact ⟨hne, by rw [show m = r from by simpa using hmr]; exact hr⟩
  · intro ⟨hne, hm⟩
    exact ⟨hne, m, hm, by simp⟩

/-! ## PackBits lemmas -/

theorem runLen_le_length (b : Nat) (l : List Nat) : runLen b l ≤ l.length := by
  induction l with
  | nil => simp [runLen]
  | cons c rest ih =>
    simp only [runLen, List.length_cons]
    split <;> omega

theorem take_runLen (b : Nat) (l : List Nat) (m : Nat) (hm : m ≤ runLen b l) :
    l.take m = List.replicate m b := by
  induction l generalizing m with
  | nil => simp [runLen] at hm; simp [hm]
  | cons c rest ih =>
    match m with
    | 0 => simp
    | m + 1 =>
      simp only [runLen] at hm
      by_cases hc : c = b
      · rw [if_pos hc] at hm
        subst hc
        simpa [List.replicate_succ] using ih m (by omega)
      · rw [if_neg hc] at hm; omega

theorem litLen_pos (b : Nat) (l : List Nat) (h : runLen b l = 0) : 1 ≤ litLen (b :: l) := by
  match l with
  | [] => simp [litLen]
  | c :: rest =>
    have hc : ¬b = c := by
      intro hbc
      subst hbc
      simp [runLen] at h
    simp only [litLen, if_neg hc]
    omega

theorem litLen_le_length (l : List Nat) : litLen l ≤ l.length := by
  induction l with
  | nil => simp [litLen]
  | cons a rest ih =>
    match rest with
    | [] => simp [litLen]
    | b :: rest' =>
      simp only [litLen, List.length_cons]
      split
      · omega
      · simp only [List.length_cons] at ih; omega

theorem packbits_encode_nil : packbits_encode [] = [] := by
  rw [packbits_encode.eq_def]

theorem packbits_encode_cons_run (b : Nat) (rest : List Nat) (hr : 2 ≤ 1 + runLen b rest) :
    packbits_encode (b :: rest) =
      (257 - min (1 + runLen b rest) 128) :: b ::
        packbits_encode (rest.drop (min (1 + runLen b rest) 128 - 1)) := by
  simp only [packbits_encode, hr, ite_true]

theorem packbits_encode_cons_lit (b : Nat) (rest : List Nat) (hr : ¬2 ≤ 1 + runLen b rest) :
    packbits_encode (b :: rest) =
      (min (litLen (b :: rest)) 128 - 1) ::
        ((b :: rest).take (min (litLen (b :: rest)) 128) ++
          packbits_encode (rest.drop (min (litLen (b :: rest)) 128 - 1))) := by
  simp only [packbits_encode, hr, ite_false]

theorem packbits_encode_eq_nil_iff (l : List Nat) : packbits_encode l = [] ↔ l = [] := by
  match l with
  | [] => simp [packbits_encode]
  | b :: rest =>
    by_cases hr : 2 ≤ 1 + runLen b rest
    · rw [packbits_encode_cons_run b rest hr]; simp
    · rw [packbits_encode_cons_lit b rest hr]; simp

/-- Decoding a single run block: the count byte `257 - n` (bit 7 set for
`2 ≤ n ≤ 128`) replicates the next byte `n` times, then the loop either
stops or continues on the remaining bytes. -/
theorem packbits_decode_run (n b : Nat) (tail : List Nat) (h2 : 2 ≤ n) (h128 : n ≤ 128) :
    packbits_decode ((257 - n) :: b :: tail) =
      if tail.isEmpty then some (List.replicate n b)
      else (packbits_decode tail).map (fun row => List.replicate n b ++ row) := by
  have hbit : 128 ≤ 257 - n := by omega
  have hn : 257 - (257 - n) = n := by omega
  rw [packbits_decode.eq_def]
  simp only [hbit, ite_true, hn]

/-- Decoding a single literal block: the count byte `k - 1` (bit 7 clear for
`1 ≤ k ≤ 128`) copies the next `k` bytes verbatim, then the loop either
stops or continues on the remaining bytes. -/
theorem packbits_decode_lit (k : Nat) (lits tail : List Nat) (h1 : 1 ≤ k) (h128 : k ≤ 128)
    (hlen : lits.length = k) :
    packbits_decode ((k - 1) :: (lits ++ tail)) =
      if tail.isEmpty then some lits
      else (packbits_decode tail).map (fun row => lits ++ row) := by
  have hbit : ¬128 ≤ k - 1 := by omega
  have hk : k - 1 + 1 = k := by omega
  rw [packbits_decode.eq_def]
  simp only [hbit, ite_false, hk, List.take_left' hlen, List.drop_left' hlen]

/-- Round-trip auxiliary, by strong induction on the row length. -/
theorem packbits_decode_encode_aux (N : Nat) :
    ∀ row : List Nat, row.length ≤ N → row ≠ [] →
      packbits_decode (packbits_encode row) = some row := by
  induction N with
  | zero =>
    intro row hlen hne
    match row with
    | [] => exact absurd rfl hne
    | b :: rest => simp at hlen
  | succ N ih =>
    intro row hlen hne
    match row with
    | [] => exact absurd rfl hne
    | b :: rest =>
      have hrestN : rest.length ≤ N := by simpa using hlen
      by_cases hr : 2 ≤ 1 + runLen b rest
      · -- run branch of the encoder
        rw [packbits_encode_cons_run b rest hr]
        have hn2 : 2 ≤ min (1 + runLen b rest) 128 := le_min hr (by norm_num)
        have hn128 : min (1 + runLen b rest) 128 ≤ 128 := min_le_right _ _
        have hnrun : min (1 + runLen b rest) 128 - 1 ≤ runLen b rest := by
          have := min_le_left (1 + runLen b rest) 128; omega
        rw [packbits_decode_run _ _ _ hn2 hn128]
        by_cases hdrop : rest.drop (min (1 + runLen b rest) 128 - 1) = []
        · rw [hdrop]
          simp only [packbits_encode_nil, List.isEmpty_nil, ite_true]
          have hle : rest.length ≤ min (1 + runLen b rest) 128 - 1 :=
            List.drop_eq_nil_iff.mp hdrop
          have hge : min (1 + runLen b rest) 128 - 1 ≤ rest.length :=
            le_trans hnrun (runLen_le_length b rest)
          have hlen' : rest.length = min (1 + runLen b rest) 128 - 1 := le_antisymm hle hge
          have hrest : rest = List.replicate (min (1 + runLen b rest) 128 - 1) b := by
            rw [← take_runLen b rest _ hnrun, List.take_of_length_le (le_of_eq hlen')]
          rw [show min (1 + runLen b rest) 128 = (min (1 + runLen b rest) 128 - 1) + 1
              from by omega,
            List.replicate_succ]
          exact congrArg some (congrArg _ hrest.symm)
        · have hne' : packbits_encode (rest.drop (min (1 + runLen b rest) 128 - 1)) ≠ [] :=
            fun hcon => hdrop ((packbits_encode_eq_nil_iff _).mp hcon)
          rw [if_neg (by simpa [List.isEmpty_iff] using hne')]
          have hlendrop : (rest.drop (min (1 + runLen b rest) 128 - 1)).length ≤ N := by
            have := List.length_drop (min (1 + runLen b rest) 128 - 1) rest
            omega
          rw [ih _ hlendrop hdrop]
          have htake : List.replicate (min (1 + runLen b rest) 128 - 1) b =
              rest.take (min (1 + runLen b rest) 128 - 1) :=
            (take_runLen b rest _ hnrun).symm
          simp only [Option.map_some']
          rw [show min (1 + runLen b rest) 128 = (min (1 + runLen b rest) 128 - 1) + 1
              from by omega,
            List.replicate_succ, htake]
          simp only [Nat.add_sub_cancel, List.cons_append, List.take_append_drop]
      · -- literal branch of the encoder
        rw [packbits_encode_cons_lit b rest hr]
        have hrun0 : runLen b rest = 0 := by omega
        have hk1 : 1 ≤ min (litLen (b :: rest)) 128 :=
          le_min (litLen_pos b rest hrun0) (by norm_num)
        have hk128 : min (litLen (b :: rest)) 128 ≤ 128 := min_le_right _ _
        have hkle : min (litLen (b :: rest)) 128 ≤ (b :: rest).length :=
          le_trans (min_le_left _ _) (litLen_le_length _)
        have hlenlits : ((b :: rest).take (min (litLen (b :: rest)) 128)).length =
            min (litLen (b :: rest)) 128 := by
          rw [List.length_take]; omega
        rw [packbits_decode_lit _ _ _ hk1 hk128 hlenlits]
        have hdropcons : rest.drop (min (litLen (b :: rest)) 128 - 1) =
            (b :: rest).drop (min (litLen (b :: rest)) 128) := by
          rw [show min (litLen (b :: rest)) 128 = (min (litLen (b :: rest)) 128 - 1) + 1
              from by omega]
          simp
        by_cases hdrop : rest.drop (min (litLen (b :: rest)) 128 - 1) = []
        · rw [hdrop]
          simp only [packbits_encode_nil, List.isEmpty_nil, ite_true]
          have hle : (b :: rest).length ≤ min (litLen (b :: rest)) 128 := by
            rw [hdropcons] at hdrop
            exact List.drop_eq_nil_iff.mp hdrop
          rw [List.take_of_length_le hle]
        · have hne' : packbits_encode (rest.drop (min (litLen (b :: rest)) 128 - 1)) ≠ [] :=
            fun hcon => hdrop ((packbits_encode_eq_nil_iff _).mp hcon)
          rw [if_neg (by simpa [List.isEmpty_iff] using hne')]
          have hlendrop : (rest.drop (min (litLen (b :: rest)) 128 - 1)).length ≤ N := by
            have := List.length_drop (min (litLen (b :: rest)) 128 - 1) rest
            omega
          rw [ih _ hlendrop hdrop]
          simp only [Option.map_some']
          rw [hdropcons, List.take_append_drop]

/-! ## Opcode matching lemmas -/

/-- In a list of opcodes whose signatures form an antichain under the
string-prefix order, at most one entry's signature is a prefix of any given
byte string (two prefixes of the same string are always comparable). -/
theorem filter_matching_length_le_one (data : List Nat) :
    ∀ l : List OpCode,
      l.Pairwise (fun a b => a.signature.isPrefixOf b.signature = false ∧
        b.signature.isPrefixOf a.signature = false) →
      (l.filter (fun op => op.signature.isPrefixOf data)).length ≤ 1 := by
  intro l
  induction l with
  | nil => intro _; simp
  | cons op l ih =>
    intro hpw
    rw [List.pairwise_cons] at hpw
    by_cases hop : op.signature.isPrefixOf data = true
    · rw [List.filter_cons_of_pos (by simpa using hop)]
      have hrest : l.filter (fun o => o.signature.isPrefixOf data) = [] := by
        rw [List.filter_eq_nil_iff]
        intro b hb hbmatch
        have hbpre : b.signature <+: data :=
          List.isPrefixOf_iff_prefix.mp (by simpa using hbmatch)
        have hoppre : op.signature <+: data := List.isPrefixOf_iff_prefix.mp hop
        rcases List.prefix_or_prefix_of_prefix hoppre hbpre with hcmp | hcmp
        · have := (hpw.1 b hb).1
          rw [(List.isPrefixOf_iff_prefix.mpr hcmp : _)] at this
          simp at this
        · have := (hpw.1 b hb).2
          rw [(List.isPrefixOf_iff_prefix.mpr hcmp : _)] at this
          simp at this
      rw [hrest]
      simp
    · rw [List.filter_cons_of_neg (by simpa using hop)]
      exact ih hpw.2

/-- **C9**: the 21 opcode signatures form a prefix antichain, so for every
byte string having at least one table signature as a prefix, exactly one
signature matches, and the uniqueness assertion in `match_opcode` cannot
fail on such an input. -/
theorem match_opcode_unique (data : List Nat)
    (h : ∃ op ∈ OPCODES, op.signature.isPrefixOf data = true) :
    (matching_opcodes data).length = 1 ∧ (match_opcode data).isSome = true := by
  have hpw : OPCODES.Pairwise (fun a b => a.signature.isPrefixOf b.signature = false ∧
      b.signature.isPrefixOf a.signature = false) := by decide
  have hle := filter_matching_length_le_one data OPCODES hpw
  have hge : 1 ≤ (matching_opcodes data).length := by
    obtain ⟨op, hmem, hmatch⟩ := h
    have hfmem : op ∈ matching_opcodes data :=
      List.mem_filter.mpr ⟨hmem, by simpa using hmatch⟩
    exact List.length_pos.mpr (List.ne_nil_of_mem hfmem)
  have hlen : (matching_opcodes data).length = 1 := le_antisymm hle hge
  refine ⟨hlen, ?_⟩
  obtain ⟨op, hop⟩ := List.length_eq_one.mp hlen
  unfold match_opcode
  rw [hop]
  rfl

/-- **C9 witness**: the concrete stream `1B 40 05` matches exactly the
`init` opcode. -/
theorem match_opcode_unique_witness :
    (matching_opcodes [0x1b, 0x40, 0x05]).length = 1 ∧
      (match_opcode [0x1b, 0x40, 0x05]).isSome = true :=
  match_opcode_unique [0x1b, 0x40, 0x05] (by decide)

/-! ## Chunker framing lemmas -/

theorem chunker_nil : chunker [] = some [] := by
  rw [chunker.eq_def]

/-- One `chunker` iteration on a stream starting with a full instruction:
when the head matches opcode `op` uniquely and the computed
`num_bytes = len(opcode) + extra` equals the instruction's length, the
instruction is sliced off whole. -/
theorem chunker_cons_step (op : OpCode) (b : Nat) (u' rest : List Nat) (extra : Nat)
    (hmatch : match_opcode (b :: (u' ++ rest)) = some op)
    (hextra : chunker_extra op (b :: (u' ++ rest)) = some extra)
    (hlen : u'.length + 1 = op.signature.length + extra) :
    chunker ((b :: u') ++ rest) = (chunker rest).map (fun instrs => (b :: u') :: instrs) := by
  rw [List.cons_append, chunker.eq_def]
  simp only []
  rw [hmatch]
  simp only []
  rw [hextra]
  simp only [← hlen]
  have htake : (b :: (u' ++ rest)).take (u'.length + 1) = b :: u' := by
    rw [List.take_succ_cons, List.take_left' rfl]
  have hdrop : (u' ++ rest).drop (u'.length + 1 - 1) = rest := by
    simp only [Nat.add_sub_cancel]
    exact List.drop_left' rfl
  rw [htake, hdrop]

/-- `chunker` yields an `n`-byte zero preamble as `n` single-byte chunks
(the `preamble` opcode has no fixed payload, so `num_bytes` stays 1). -/
theorem chunker_preamble_aux (n : Nat) (rest : List Nat) :
    chunker (List.replicate n 0 ++ rest) =
      (chunker rest).map (fun instrs => List.replicate n [0] ++ instrs) := by
  induction n with
  | zero =>
    simp only [List.replicate, List.nil_append]
    cases chunker rest <;> simp
  | succ n ih =>
    rw [List.replicate_succ, List.cons_append]
    have hstep := chunker_cons_step
      ⟨[0x00], "preamble", -1, "Preamble, 200-300x 0x00 to clear comamnd buffer"⟩
      0 [] (List.replicate n 0 ++ rest) 0
      (by simp [match_opcode, matching_opcodes, OPCODES, List.isPrefixOf, List.filter])
      (by simp [chunker_extra]) (by simp)
    simp only [List.nil_append] at hstep
    rw [show (0 :: (List.replicate n 0 ++ rest)) = (0 :: []) ++ (List.replicate n 0 ++ rest)
        from rfl, hstep, ih]
    cases chunker rest <;> simp [List.replicate_succ]

/-- `chunker` on a stream starting with one encoder-appended unit yields
`explode_unit` of that unit and continues on the remainder. -/
theorem chunker_good_cons (u : List Nat) (hu : GoodUnit u) (rest : List Nat) :
    chunker (u ++ rest) = (chunker rest).map (fun instrs => explode_unit u ++ instrs) := by
  cases hu with
  | preamble =>
    rw [show explode_unit (List.replicate 200 0) = List.replicate 200 [0] from by
      rw [explode_unit, show (200 : Nat) = 199 + 1 from rfl, List.replicate_succ,
        List.head?_cons, if_pos rfl, List.length_cons, List.length_replicate]]
    exact chunker_preamble_aux 200 rest
  | switch_mode =>
    have h := chunker_cons_step ⟨[0x1b, 0x69, 0x61], "mode setting", 1, ""⟩
      0x1b [0x69, 0x61, 0x01] rest 1
      (by simp [match_opcode, matching_opcodes, OPCODES, List.isPrefixOf, List.filter])
      (by simp [chunker_extra]) (by simp)
    rw [show explode_unit [0x1b, 0x69, 0x61, 0x01] = [[0x1b, 0x69, 0x61, 0x01]] from by
      simp [explode_unit]]
    exact h
  | init =>
    have h := chunker_cons_step ⟨[0x1b, 0x40], "init", 0, "initialization"⟩
      0x1b [0x40] rest 0
      (by simp [match_opcode, matching_opcodes, OPCODES, List.isPrefixOf, List.filter])
      (by simp [chunker_extra]) (by simp)
    rw [show explode_unit [0x1b, 0x40] = [[0x1b, 0x40]] from by simp [explode_unit]]
    exact h
  | status =>
    have h := chunker_cons_step
      ⟨[0x1b, 0x69, 0x53], "status request", 0,
        "A status information request sent to the printer"⟩
      0x1b [0x69, 0x53] rest 0
      (by simp [match_opcode, matching_opcodes, OPCODES, List.isPrefixOf, List.filter])
      (by simp [chunker_extra]) (by simp)
    rw [show explode_unit [0x1b, 0x69, 0x53] = [[0x1b, 0x69, 0x53]] from by simp [explode_unit]]
    exact h
  | media payload hp =>
    have h := chunker_cons_step
      ⟨[0x1b, 0x69, 0x7A], "media/quality", 10, "print-media and print-quality"⟩
      0x1b ([0x69, 0x7A] ++ payload) rest 10
      (by simp [match_opcode, matching_opcodes, OPCODES, List.isPrefixOf, List.filter])
      (by simp [chunker_extra]) (by simp [hp])
    rw [show explode_unit ([0x1b, 0x69, 0x7A] ++ payload) =
        [[0x1b, 0x69, 0x7A] ++ payload] from by simp [explode_unit]]
    exact h
  | autocut b =>
    have h := chunker_cons_step ⟨[0x1b, 0x69, 0x4D], "various", 1, "Auto cut flag in bit 7"⟩
      0x1b [0x69, 0x4D, b] rest 1
      (by simp [match_opcode, matching_opcodes, OPCODES, List.isPrefixOf, List.filter])
      (by simp [chunker_extra]) (by simp)
    rw [show explode_unit [0x1b, 0x69, 0x4D, b] = [[0x1b, 0x69, 0x4D, b]] from by
      simp [explode_unit]]
    exact h
  | cut_every b =>
    have h := chunker_cons_step ⟨[0x1b, 0x69, 0x41], "cut-every", 1, "cut every n-th page"⟩
      0x1b [0x69, 0x41, b] rest 1
      (by simp [match_opcode, matching_opcodes, OPCODES, List.isPrefixOf, List.filter])
      (by simp [chunker_extra]) (by simp)
    rw [show explode_unit [0x1b, 0x69, 0x41, b] = [[0x1b, 0x69, 0x41, b]] from by
      simp [explode_unit]]
    exact h
  | expanded b =>
    have h := chunker_cons_step ⟨[0x1b, 0x69, 0x4B], "expanded", 1, ""⟩
      0x1b [0x69, 0x4B, b] rest 1
      (by simp [match_opcode, matching_opcodes, OPCODES, List.isPrefixOf, List.filter])
      (by simp [chunker_extra]) (by simp)
    rw [show explode_unit [0x1b, 0x69, 0x4B, b] = [[0x1b, 0x69, 0x4B, b]] from by
      simp [explode_unit]]
    exact h
  | margins b1 b2 =>
    have h := chunker_cons_step ⟨[0x1b, 0x69, 0x64], "margins", 2, ""⟩
      0x1b [0x69, 0x64, b1, b2] rest 2
      (by simp [match_opcode, matching_opcodes, OPCODES, List.isPrefixOf, List.filter])
      (by simp [chunker_extra]) (by simp)
    rw [show explode_unit [0x1b, 0x69, 0x64, b1, b2] = [[0x1b, 0x69, 0x64, b1, b2]] from by
      simp [explode_unit]]
    exact h
  | compression b =>
    have h := chunker_cons_step ⟨[0x4D], "compression", 1, ""⟩ 0x4D [b] rest 1
      (by simp [match_opcode, matching_opcodes, OPCODES, List.isPrefixOf, List.filter])
      (by simp [chunker_extra]) (by simp)
    rw [show explode_unit [0x4D, b] = [[0x4D, b]] from by simp [explode_unit]]
    exact h
  | raster_ql n row hrow =>
    have h := chunker_cons_step ⟨[0x67], "raster QL", -1, ""⟩
      0x67 ([0x00, n] ++ row) rest (n + 2)
      (by simp [match_opcode, matching_opcodes, OPCODES, List.isPrefixOf, List.filter])
      (by simp [chunker_extra]) (by simp [hrow]; omega)
    rw [show explode_unit ([0x67, 0x00, n] ++ row) = [[0x67, 0x00, n] ++ row] from by
      simp [explode_unit]]
    exact h
  | raster_two c n row hrow =>
    have h := chunker_cons_step ⟨[0x77], "2-color raster QL", -1, ""⟩
      0x77 ([c, n] ++ row) rest (n + 2)
      (by simp [match_opcode, matching_opcodes, OPCODES, List.isPrefixOf, List.filter])
      (by simp [chunker_extra]) (by simp [hrow]; omega)
    rw [show explode_unit ([0x77, c, n] ++ row) = [[0x77, c, n] ++ row] from by
      simp [explode_unit]]
    exact h
  | raster_pt lo hi row hrow =>
    have h := chunker_cons_step ⟨[0x47], "raster P-touch", -1, ""⟩
      0x47 ([lo, hi] ++ row) rest (lo + hi * 256 + 2)
      (by simp [match_opcode, matching_opcodes, OPCODES, List.isPrefixOf, List.filter])
      (by simp [chunker_extra]) (by simp [hrow]; omega)
    rw [show explode_unit ([0x47, lo, hi] ++ row) = [[0x47, lo, hi] ++ row] from by
      simp [explode_unit]]
    exact h
  | print_last =>
    have h := chunker_cons_step ⟨[0x1A], "print", 0, "print final page"⟩ 0x1A [] rest 0
      (by simp [match_opcode, matching_opcodes, OPCODES, List.isPrefixOf, List.filter])
      (by simp [chunker_extra]) (by simp)
    rw [show explode_unit [0x1A] = [[0x1A]] from by simp [explode_unit]]
    exact h

/-- `chunker` applied to a concatenation of encoder units re-yields each
unit's `explode_unit` expansion, in order. -/
theorem chunker_flatten_good :
    ∀ units : List (List Nat), (∀ u ∈ units, GoodUnit u) →
      chunker units.flatten = some (units.flatMap explode_unit) := by
  intro units
  induction units with
  | nil => intro _; exact chunker_nil
  | cons u us ih =>
    intro h
    have hgu : GoodUnit u := h u (by simp)
    rw [show (u :: us).flatten = u ++ us.flatten from rfl,
      chunker_good_cons u hgu us.flatten, ih (fun v hv => h v (by simp [hv]))]
    rfl

/-! ## Instruction-encoder inventory lemmas -/

/-- `Except` bind inversion for ok results. -/
theorem except_bind_ok {α β : Type} (x : Except PyExc α) (f : α → Except PyExc β) (r : β) :
    (x >>= f) = .ok r ↔ ∃ a, x = .ok a ∧ f a = .ok r := by
  cases x with
  | error e => simp [Bind.bind, Except.bind]
  | ok a => simp [Bind.bind, Except.bind]

/-- `add_media_and_quality` on success: state unchanged, one 13-byte
`media/quality` instruction. -/
theorem add_media_ok (st st' : RasterState) (rn : Nat) (us : List (List Nat))
    (h : add_media_and_quality st rn = .ok (st', us)) :
    st' = st ∧ ∃ payload, us = [[0x1b, 0x69, 0x7A] ++ payload] ∧ payload.length = 10 := by
  unfold add_media_and_quality packUInt32LE at h
  by_cases hrn : rn < 4294967296
  · rw [if_pos hrn] at h
    simp [Except.map] at h
    obtain ⟨h1, h2⟩ := h
    exact ⟨h1.symm, _, h2.symm, by simp⟩
  · rw [if_neg hrn] at h
    simp [Except.map] at h

/-- The autocut/cut-every block of `encode_image` never fails and leaves the
state unchanged; its units are `various` or `cut-every` instructions. -/
theorem cut_step_ok (caps : ModelCaps) (st : RasterState) (c : Bool) :
    ∃ us, catch_unsupported st (do
        if c then
          let (st, a) ← add_autocut caps st true
          let (st, b) ← add_cut_every caps st 1
          Except.ok (st, a ++ b)
        else Except.ok (st, [])) = .ok (st, us) ∧
      ∀ u ∈ us, (∃ x, u = [0x1b, 0x69, 0x4D, x]) ∨ (∃ x, u = [0x1b, 0x69, 0x41, x]) := by
  cases c with
  | false => exact ⟨[], by simp [catch_unsupported], by simp⟩
  | true =>
    cases hcs : caps.cuttingsupport with
    | true =>
      refine ⟨[[0x1b, 0x69, 0x4D, 1 <<< 6], [0x1b, 0x69, 0x41, 1 % 256]], ?_, ?_⟩
      · simp [add_autocut, add_cut_every, hcs, catch_unsupported, Bind.bind, Except.bind]
      · intro u hu
        simp only [List.mem_cons, List.not_mem_nil, or_false] at hu
        rcases hu with rfl | rfl
        · exact Or.inl ⟨_, rfl⟩
        · exact Or.inr ⟨_, rfl⟩
    | false =>
      cases hw : st.exception_on_warning with
      | true =>
        refine ⟨[], ?_, by simp⟩
        simp [add_autocut, hcs, RasterState.warn, hw, catch_unsupported,
          Bind.bind, Except.bind, Except.map]
      | false =>
        refine ⟨[], ?_, by simp⟩
        simp [add_autocut, add_cut_every, hcs, RasterState.warn, hw, catch_unsupported,
          Bind.bind, Except.bind, Except.map]

/-- The expanded-mode step never fails, leaves the state unchanged and emits
at most one `expanded` instruction. -/
theorem expanded_step_ok (caps : ModelCaps) (st : RasterState) :
    ∃ us, catch_unsupported st (add_expanded_mode caps st) = .ok (st, us) ∧
      (us = [] ∨ ∃ x, us = [[0x1b, 0x69, 0x4B, x]]) := by
  unfold add_expanded_mode
  by_cases he : caps.expandedmode
  · by_cases h2 : st.two_color_printing ∧ ¬caps.two_color_support
    · cases hw : st.exception_on_warning with
      | true =>
        refine ⟨[], ?_, Or.inl rfl⟩
        simp [he, h2, RasterState.warn, hw, catch_unsupported, Except.map]
      | false =>
        refine ⟨[], ?_, Or.inl rfl⟩
        simp [he, h2, RasterState.warn, hw, catch_unsupported, Except.map]
    · refine ⟨[[0x1b, 0x69, 0x4B,
        ((if st.cut_at_end then 1 else 0) <<< 3) ||| ((if st.dpi_600 then 1 else 0) <<< 6) |||
          (if st.two_color_printing then 1 else 0)]], ?_, Or.inr ⟨_, rfl⟩⟩
      rw [if_neg (by simp [he]), if_neg h2]
      simp [catch_unsupported]
  · cases hw : st.exception_on_warning with
    | true =>
      refine ⟨[], ?_, Or.inl rfl⟩
      simp [he, RasterState.warn, hw, catch_unsupported, Except.map]
    | false =>
      refine ⟨[], ?_, Or.inl rfl⟩
      simp [he, RasterState.warn, hw, catch_unsupported, Except.map]

/-- `add_margins` on success: state unchanged, one 5-byte `margins`
instruction. -/
theorem add_margins_ok (st st' : RasterState) (dots : Nat) (us : List (List Nat))
    (h : add_margins st dots = .ok (st', us)) :
    st' = st ∧ ∃ b1 b2, us = [[0x1b, 0x69, 0x64, b1, b2]] := by
  unfold add_margins packUInt16LE at h
  by_cases hd : dots < 65536
  · rw [if_pos hd] at h
    simp [Except.map] at h
    obtain ⟨h1, h2⟩ := h
    exact ⟨h1.symm, _, _, h2.symm⟩
  · rw [if_neg hd] at h
    simp [Except.map] at h

/-- The compression step of `encode_image` never fails; it emits a
`compression` instruction (and records the flag) only when requested *and*
supported, and otherwise appends nothing and leaves the state unchanged. -/
theorem compress_step_ok (caps : ModelCaps) (st : RasterState) (c : Bool) :
    ∃ st' us, catch_unsupported st (do
        if c then add_compression caps st true else Except.ok (st, [])) = .ok (st', us) ∧
      ((st' = st ∧ us = []) ∨
        (c = true ∧ caps.compressionsupport = true ∧
          st' = { st with compression := true } ∧ ∃ x, us = [[0x4D, x]])) := by
  cases c with
  | false => exact ⟨st, [], by simp [catch_unsupported], Or.inl ⟨rfl, rfl⟩⟩
  | true =>
    cases hcs : caps.compressionsupport with
    | true =>
      refine ⟨{ st with compression := true }, [[0x4D, 1 <<< 1]], ?_,
        Or.inr ⟨rfl, rfl, rfl, _, rfl⟩⟩
      simp [add_compression, hcs, catch_unsupported]
    | false =>
      cases hw : st.exception_on_warning with
      | true =>
        refine ⟨st, [], ?_, Or.inl ⟨rfl, rfl⟩⟩
        simp [add_compression, hcs, RasterState.warn, hw, catch_unsupported, Except.map]
      | false =>
        refine ⟨st, [], ?_, Or.inl ⟨rfl, rfl⟩⟩
        simp [add_compression, hcs, RasterState.warn, hw, catch_unsupported, Except.map]


/-- `raster_line` on success produces one well-framed raster instruction
with head byte `67`, `77` or `47`. -/
theorem raster_line_ok (caps : ModelCaps) (c : Bool) (lane : Nat) (row u : List Nat)
    (h : raster_line caps c lane row = .ok u) :
    GoodUnit u ∧ (u.head? = some 0x67 ∨ u.head? = some 0x77 ∨ u.head? = some 0x47) := by
  unfold raster_line byteOf at h
  by_cases hpt : caps.identifier_pt
  · rw [if_pos hpt] at h
    by_cases hh : (if c then packbits_encode row else row).length / 256 < 256
    · rw [if_pos hh] at h
      simp [Except.map] at h
      rw [← h]
      refine ⟨GoodUnit.raster_pt _ _ _ (Nat.mod_add_div' _ 256).symm, ?_⟩
      simp
    · rw [if_neg hh] at h
      simp [Except.map] at h
  · rw [if_neg hpt] at h
    by_cases hh : (if c then packbits_encode row else row).length < 256
    · rw [if_pos hh] at h
      simp [Except.map] at h
      by_cases hl : lane = 0
      · rw [if_pos hl] at h
        rw [← h]
        exact ⟨GoodUnit.raster_ql _ _ rfl, by simp⟩
      · rw [if_neg hl] at h
        rw [← h]
        exact ⟨GoodUnit.raster_two _ _ _ rfl, by simp⟩
    · rw [if_neg hh] at h
      simp [Except.map] at h

/-- All units of the single-plane raster loop are good raster lines. -/
theorem raster_lines_mono_ok (caps : ModelCaps) (c : Bool) :
    ∀ (rows : List (List Nat)) (us : List (List Nat)),
      raster_lines_mono caps c rows = .ok us →
      ∀ u ∈ us, GoodUnit u ∧
        (u.head? = some 0x67 ∨ u.head? = some 0x77 ∨ u.head? = some 0x47) := by
  intro rows
  induction rows with
  | nil =>
    intro us h
    rw [raster_lines_mono] at h
    cases h
    simp
  | cons row rows ih =>
    intro us h
    rw [raster_lines_mono] at h
    rw [except_bind_ok] at h
    obtain ⟨u, hu, h⟩ := h
    rw [except_bind_ok] at h
    obtain ⟨us', hus', h⟩ := h
    simp at h
    intro v hv
    rw [← h] at hv
    rcases List.mem_cons.mp hv with rfl | hv
    · exact raster_line_ok caps c 0 row v hu
    · exact ih us' hus' v hv

/-- All units of the two-plane raster loop are good raster lines. -/
theorem raster_lines_two_ok (caps : ModelCaps) (c : Bool) :
    ∀ (rows : List (List Nat × List Nat)) (us : List (List Nat)),
      raster_lines_two caps c rows = .ok us →
      ∀ u ∈ us, GoodUnit u ∧
        (u.head? = some 0x67 ∨ u.head? = some 0x77 ∨ u.head? = some 0x47) := by
  intro rows
  induction rows with
  | nil =>
    intro us h
    rw [raster_lines_two] at h
    cases h
    simp
  | cons rowp rows ih =>
    intro us h
    rw [raster_lines_two] at h
    rw [except_bind_ok] at h
    obtain ⟨u1, hu1, h⟩ := h
    rw [except_bind_ok] at h
    obtain ⟨u2, hu2, h⟩ := h
    rw [except_bind_ok] at h
    obtain ⟨us', hus', h⟩ := h
    simp at h
    intro v hv
    rw [← h] at hv
    rcases List.mem_cons.mp hv with rfl | hv
    · exact raster_line_ok caps c 1 rowp.1 v hu1
    · rcases List.mem_cons.mp hv with rfl | hv
      · exact raster_line_ok caps c 2 rowp.2 v hu2
      · exact ih us' hus' v hv

/-- `add_raster_data` on success: state unchanged, all units good raster
lines. -/
theorem add_raster_data_ok (caps : ModelCaps) (st st' : RasterState) (im : RasterImage)
    (sec : Option RasterImage) (us : List (List Nat))
    (h : add_raster_data caps st im sec = .ok (st', us)) :
    st' = st ∧ ∀ u ∈ us, GoodUnit u ∧
      (u.head? = some 0x67 ∨ u.head? = some 0x77 ∨ u.head? = some 0x47) := by
  unfold add_raster_data at h
  by_cases hw : im.width ≠ caps.number_bytes_per_row * 8
  · rw [if_pos hw] at h
    simp at h
  · rw [if_neg hw] at h
    cases sec with
    | none =>
      simp only [] at h
      cases hr : raster_lines_mono caps st.compression im.rows with
      | error e => rw [hr] at h; simp [Except.map] at h
      | ok us0 =>
        rw [hr] at h
        simp [Except.map] at h
        exact ⟨h.1.symm, fun u hu =>
          raster_lines_mono_ok caps st.compression im.rows us0 hr u (h.2 ▸ hu)⟩
    | some im2 =>
      simp only [] at h
      by_cases hdim : im.width ≠ im2.width ∨ im.rows.length ≠ im2.rows.length
      · rw [if_pos hdim] at h
        simp at h
      · rw [if_neg hdim] at h
        cases hr : raster_lines_two caps st.compression (im.rows.zip im2.rows) with
        | error e => rw [hr] at h; simp [Except.map] at h
        | ok us0 =>
          rw [hr] at h
          simp [Except.map] at h
          exact ⟨h.1.symm, fun u hu =>
            raster_lines_two_ok caps st.compression _ us0 hr u (h.2 ▸ hu)⟩

/-- `GoodUnit` implies the unit is not the intermediate-page print opcode. -/
theorem goodUnit_ne_ff (u : List Nat) (hu : GoodUnit u) : u ≠ [0x0C] := by
  cases hu <;> intro hcon <;> simp at hcon

/-- Inversion form of `cut_step_ok`. -/
theorem cut_step_inv (caps : ModelCaps) (st st' : RasterState) (c : Bool)
    (us : List (List Nat))
    (h : catch_unsupported st (do
        if c then
          let (st, a) ← add_autocut caps st true
          let (st, b) ← add_cut_every caps st 1
          Except.ok (st, a ++ b)
        else Except.ok (st, [])) = .ok (st', us)) :
    st' = st ∧
      ∀ u ∈ us, (∃ x, u = [0x1b, 0x69, 0x4D, x]) ∨ (∃ x, u = [0x1b, 0x69, 0x41, x]) := by
  obtain ⟨us0, hstep, hgood⟩ := cut_step_ok caps st c
  rw [hstep] at h
  cases h
  exact ⟨rfl, hgood⟩

/-- Inversion form of `expanded_step_ok`. -/
theorem expanded_step_inv (caps : ModelCaps) (st st' : RasterState) (us : List (List Nat))
    (h : catch_unsupported st (add_expanded_mode caps st) = .ok (st', us)) :
    st' = st ∧ (us = [] ∨ ∃ x, us = [[0x1b, 0x69, 0x4B, x]]) := by
  obtain ⟨us0, hstep, hshape⟩ := expanded_step_ok caps st
  rw [hstep] at h
  cases h
  exact ⟨rfl, hshape⟩

/-- Inversion form of `compress_step_ok`. -/
theorem compress_step_inv (caps : ModelCaps) (st st' : RasterState) (c : Bool)
    (us : List (List Nat))
    (h : catch_unsupported st (do
        if c then add_compression caps st true else Except.ok (st, [])) = .ok (st', us)) :
    us = [] ∨ (c = true ∧ caps.compressionsupport = true ∧ ∃ x, us = [[0x4D, x]]) := by
  obtain ⟨st0, us0, hstep, hshape⟩ := compress_step_ok caps st c
  rw [hstep] at h
  cases h
  rcases hshape with ⟨_, h⟩ | ⟨hc, hs, _, hx⟩
  · exact Or.inl h
  · exact Or.inr ⟨hc, hs, hx⟩

/-- The conclusions of `encode_image_ok`, stated over the block's
constituent segments. -/
theorem encode_block_props (copt csup : Bool) (payload : List Nat)
    (hplen : payload.length = 10) (u3 u4 u6 u7 : List (List Nat)) (b1 b2 : Nat)
    (hgood3 : ∀ u ∈ u3, (∃ x, u = [0x1b, 0x69, 0x4D, x]) ∨ (∃ x, u = [0x1b, 0x69, 0x41, x]))
    (hshape4 : u4 = [] ∨ ∃ x, u4 = [[0x1b, 0x69, 0x4B, x]])
    (hcomp : u6 = [] ∨ (copt = true ∧ csup = true ∧ ∃ x, u6 = [[0x4D, x]]))
    (hgood7 : ∀ u ∈ u7, GoodUnit u ∧
      (u.head? = some 0x67 ∨ u.head? = some 0x77 ∨ u.head? = some 0x47)) :
    (∀ u ∈ [[0x1b, 0x69, 0x53]] ++ [[0x1b, 0x69, 0x7A] ++ payload] ++ u3 ++ u4 ++
        [[0x1b, 0x69, 0x64, b1, b2]] ++ u6 ++ u7 ++ [[0x1A]], GoodUnit u) ∧
      ([[0x1b, 0x69, 0x53]] ++ [[0x1b, 0x69, 0x7A] ++ payload] ++ u3 ++ u4 ++
        [[0x1b, 0x69, 0x64, b1, b2]] ++ u6 ++ u7 ++ [[0x1A]]).getLast? = some [0x1A] ∧
      ((copt = false ∨ csup = false) →
        ∀ u ∈ [[0x1b, 0x69, 0x53]] ++ [[0x1b, 0x69, 0x7A] ++ payload] ++ u3 ++ u4 ++
          [[0x1b, 0x69, 0x64, b1, b2]] ++ u6 ++ u7 ++ [[0x1A]], u.head? ≠ some 0x4D) := by
  have hu6nil : (copt = false ∨ csup = false) → u6 = [] := by
    intro hc
    rcases hcomp with h | ⟨hct, hst, _⟩
    · exact h
    · rcases hc with hc | hc
      · rw [hct] at hc; exact absurd hc (by simp)
      · rw [hst] at hc; exact absurd hc (by simp)
  refine ⟨?_, ?_, ?_⟩
  · intro u hu
    simp only [List.mem_append, List.mem_cons, List.not_mem_nil, or_false,
      List.mem_singleton] at hu
    rcases hu with ((((((rfl | rfl) | hu) | hu) | rfl) | hu) | hu) | rfl
    · exact GoodUnit.status
    · exact GoodUnit.media payload hplen
    · rcases hgood3 u hu with ⟨x, rfl⟩ | ⟨x, rfl⟩
      · exact GoodUnit.autocut x
      · exact GoodUnit.cut_every x
    · rcases hshape4 with rfl | ⟨x, rfl⟩
      · simp at hu
      · rw [List.mem_singleton] at hu
        rw [hu]
        exact GoodUnit.expanded x
    · exact GoodUnit.margins b1 b2
    · rcases hcomp with rfl | ⟨_, _, x, rfl⟩
      · simp at hu
      · rw [List.mem_singleton] at hu
        rw [hu]
        exact GoodUnit.compression x
    · exact (hgood7 u hu).1
    · exact GoodUnit.print_last
  · rw [List.getLast?_append_of_ne_nil _ (by simp)]
    rfl
  · intro hc u hu
    have hu6 := hu6nil hc
    subst hu6
    simp only [List.append_nil, List.mem_append, List.mem_cons, List.not_mem_nil, or_false,
      List.mem_singleton] at hu
    rcases hu with (((((rfl | rfl) | hu) | hu) | rfl) | hu) | rfl
    · simp
    · simp
    · rcases hgood3 u hu with ⟨x, rfl⟩ | ⟨x, rfl⟩ <;> simp
    · rcases hshape4 with rfl | ⟨x, rfl⟩
      · simp at hu
      · rw [List.mem_singleton] at hu
        rw [hu]
        simp
    · simp
    · rcases (hgood7 u hu).2 with hh | hh | hh <;> rw [hh] <;> simp
    · simp

/-- What one `encode_image` call appends: only well-formed units, the block
ends with the final-page print opcode `1A`, and no compression-toggle
instruction appears unless compression was both requested and supported. -/
theorem encode_image_ok (caps : ModelCaps) (ls : LabelSpec) (opts : JobOptions)
    (st st' : RasterState) (im : CompositedImage) (block : List (List Nat))
    (h : encode_image caps ls opts st im = .ok (st', block)) :
    (∀ u ∈ block, GoodUnit u) ∧
      block.getLast? = some [0x1A] ∧
      ((opts.compress = false ∨ caps.compressionsupport = false) →
        ∀ u ∈ block, u.head? ≠ some 0x4D) := by
  unfold encode_image at h
  rw [except_bind_ok] at h
  obtain ⟨⟨st1, u1⟩, h1, h⟩ := h
  rw [add_status_information] at h1
  cases h1
  simp only [] at h
  rw [except_bind_ok] at h
  obtain ⟨⟨st2, u2⟩, h2, h⟩ := h
  obtain ⟨rfl, payload, hu2, hplen⟩ := add_media_ok _ _ _ _ h2
  simp only [] at h
  rw [except_bind_ok] at h
  obtain ⟨⟨st3, u3⟩, h3, h⟩ := h
  obtain ⟨rfl, hgood3⟩ := cut_step_inv _ _ _ _ _ h3
  simp only [] at h
  rw [except_bind_ok] at h
  obtain ⟨⟨st4, u4⟩, h4, h⟩ := h
  obtain ⟨rfl, hshape4⟩ := expanded_step_inv _ _ _ _ h4
  simp only [] at h
  rw [except_bind_ok] at h
  obtain ⟨⟨st5, u5⟩, h5, h⟩ := h
  obtain ⟨rfl, b1, b2, hu5⟩ := add_margins_ok _ _ _ _ h5
  simp only [] at h
  rw [except_bind_ok] at h
  obtain ⟨⟨st6, u6⟩, h6, h⟩ := h
  have hcomp := compress_step_inv _ _ _ _ _ h6
  simp only [] at h
  subst hu2
  subst hu5
  cases hred : opts.red with
  | true =>
    rw [hred] at h
    rw [if_pos rfl] at h
    rw [except_bind_ok] at h
    obtain ⟨⟨st7, u7⟩, h7, h⟩ := h
    obtain ⟨rfl, hgood7⟩ := add_raster_data_ok _ _ _ _ _ _ h7
    simp only [] at h
    rw [except_bind_ok] at h
    obtain ⟨⟨st8, u8⟩, h8, h⟩ := h
    rw [add_print] at h8
    cases h8
    simp only [] at h
    cases h
    have := encode_block_props opts.compress caps.compressionsupport payload hplen
      u3 u4 u6 u7 b1 b2 hgood3 hshape4 hcomp hgood7
    simpa [List.append_assoc] using this
  | false =>
    rw [hred] at h
    rw [if_neg (by simp)] at h
    rw [except_bind_ok] at h
    obtain ⟨⟨st7, u7⟩, h7, h⟩ := h
    obtain ⟨rfl, hgood7⟩ := add_raster_data_ok _ _ _ _ _ _ h7
    simp only [] at h
    rw [except_bind_ok] at h
    obtain ⟨⟨st8, u8⟩, h8, h⟩ := h
    rw [add_print] at h8
    cases h8
    simp only [] at h
    cases h
    have := encode_block_props opts.compress caps.compressionsupport payload hplen
      u3 u4 u6 u7 b1 b2 hgood3 hshape4 hcomp hgood7
    simpa [List.append_assoc] using this

/-- The optional mode-switch step of `generate_instructions` never fails
and leaves the state unchanged. -/
theorem switch_step_ok (caps : ModelCaps) (st : RasterState) :
    ∃ us, catch_unsupported st (add_switch_mode caps st) = .ok (st, us) ∧
      (us = [] ∨ us = [[0x1b, 0x69, 0x61, 0x01]]) := by
  unfold add_switch_mode
  by_cases hm : caps.modesetting
  · refine ⟨[[0x1b, 0x69, 0x61, 0x01]], ?_, Or.inr rfl⟩
    rw [if_neg (by simp [hm])]
    simp [catch_unsupported]
  · cases hw : st.exception_on_warning with
    | true =>
      refine ⟨[], ?_, Or.inl rfl⟩
      simp [hm, RasterState.warn, hw, catch_unsupported, Except.map]
    | false =>
      refine ⟨[], ?_, Or.inl rfl⟩
      simp [hm, RasterState.warn, hw, catch_unsupported, Except.map]

/-- Inversion form of `switch_step_ok`. -/
theorem switch_step_inv (caps : ModelCaps) (st st' : RasterState) (us : List (List Nat))
    (h : catch_unsupported st (add_switch_mode caps st) = .ok (st', us)) :
    st' = st ∧ (us = [] ∨ us = [[0x1b, 0x69, 0x61, 0x01]]) := by
  obtain ⟨us0, hstep, hshape⟩ := switch_step_ok caps st
  rw [hstep] at h
  cases h
  exact ⟨rfl, hshape⟩

/-- Every per-image block of the image loop satisfies `encode_image_ok`'s
conclusions. -/
theorem encode_images_ok (caps : ModelCaps) (ls : LabelSpec) (opts : JobOptions) :
    ∀ (images : List CompositedImage) (st st' : RasterState)
      (blocks : List (List (List Nat))),
      encode_images caps ls opts st images = .ok (st', blocks) →
      ∀ b ∈ blocks, (∀ u ∈ b, GoodUnit u) ∧ b.getLast? = some [0x1A] ∧
        ((opts.compress = false ∨ caps.compressionsupport = false) →
          ∀ u ∈ b, u.head? ≠ some 0x4D) := by
  intro images
  induction images with
  | nil =>
    intro st st' blocks h
    rw [encode_images] at h
    cases h
    simp
  | cons im ims ih =>
    intro st st' blocks h
    rw [encode_images] at h
    rw [except_bind_ok] at h
    obtain ⟨⟨stA, b⟩, hb, h⟩ := h
    simp only [] at h
    rw [except_bind_ok] at h
    obtain ⟨⟨stB, bs⟩, hbs, h⟩ := h
    simp only [] at h
    cases h
    intro blk hblk
    rcases List.mem_cons.mp hblk with rfl | hblk
    · exact encode_image_ok _ _ _ _ _ _ _ hb
    · exact ih _ _ _ hbs blk hblk

/-- What one `generate_instructions` job emits: only well-formed units,
every per-image block ends with the final-page print opcode, and no
compression-toggle instruction appears unless compression was both
requested and supported. -/
theorem generate_instructions_inv (caps : ModelCaps) (ls : LabelSpec) (opts : JobOptions)
    (st st' : RasterState) (images : List CompositedImage) (job : GeneratedJob)
    (h : generate_instructions caps ls opts st images = .ok (st', job)) :
    (∀ u ∈ job.units, GoodUnit u) ∧
      (∀ b ∈ job.image_blocks, b.getLast? = some [0x1A]) ∧
      ((opts.compress = false ∨ caps.compressionsupport = false) →
        ∀ u ∈ job.units, u.head? ≠ some 0x4D) := by
  unfold generate_instructions at h
  by_cases hred : opts.red ∧ ¬caps.two_color_support
  · rw [if_pos hred] at h
    simp at h
  · rw [if_neg hred] at h
    rw [except_bind_ok] at h
    obtain ⟨⟨st1, p1⟩, h1, h⟩ := h
    obtain ⟨rfl, hp1⟩ := switch_step_inv _ _ _ _ h1
    simp only [] at h
    rw [except_bind_ok] at h
    obtain ⟨⟨st2, p2⟩, h2, h⟩ := h
    rw [add_invalidate] at h2
    cases h2
    simp only [] at h
    rw [except_bind_ok] at h
    obtain ⟨⟨st3, p3⟩, h3, h⟩ := h
    rw [add_initialize_instr] at h3
    cases h3
    simp only [] at h
    rw [except_bind_ok] at h
    obtain ⟨⟨st4, p4⟩, h4, h⟩ := h
    obtain ⟨rfl, hp4⟩ := switch_step_inv _ _ _ _ h4
    simp only [] at h
    rw [except_bind_ok] at h
    obtain ⟨⟨st5, blocks⟩, h5, h⟩ := h
    simp only [] at h
    cases h
    have hblocks := encode_images_ok _ _ _ _ _ _ _ h5
    have hpre : ∀ u ∈ p1 ++ [List.replicate 200 0] ++ [[0x1b, 0x40]] ++ p4,
        GoodUnit u ∧ u.head? ≠ some 0x4D := by
      intro u hu
      simp only [List.mem_append, List.mem_cons, List.not_mem_nil, or_false,
        List.mem_singleton] at hu
      rcases hu with ((hu | rfl) | rfl) | hu
      · rcases hp1 with rfl | rfl
        · simp at hu
        · rw [List.mem_singleton] at hu
          rw [hu]
          exact ⟨GoodUnit.switch_mode, by simp⟩
      · refine ⟨GoodUnit.preamble, ?_⟩
        rw [show (200 : Nat) = 199 + 1 from rfl, List.replicate_succ]
        simp
      · exact ⟨GoodUnit.init, by simp⟩
      · rcases hp4 with rfl | rfl
        · simp at hu
        · rw [List.mem_singleton] at hu
          rw [hu]
          exact ⟨GoodUnit.switch_mode, by simp⟩
    refine ⟨?_, ?_, ?_⟩
    · intro u hu
      rw [GeneratedJob.units] at hu
      rcases List.mem_append.mp hu with hu | hu
      · exact (hpre u hu).1
      · obtain ⟨b, hb, hub⟩ := List.mem_flatten.mp hu
        exact ((hblocks b hb).1) u hub
    · intro b hb
      exact (hblocks b hb).2.1
    · intro hc u hu
      rw [GeneratedJob.units] at hu
      rcases List.mem_append.mp hu with hu | hu
      · exact (hpre u hu).2
      · obtain ⟨b, hb, hub⟩ := List.mem_flatten.mp hu
        exact ((hblocks b hb).2.2 hc) u hub

/-- `(explode_unit u).flatten = u` for encoder units: re-framing by the
chunker preserves the byte stream. -/
theorem explode_unit_flatten (u : List Nat) (hu : GoodUnit u) :
    (explode_unit u).flatten = u := by
  have hrepl : ∀ n : Nat, (List.replicate n ([0] : List Nat)).flatten = List.replicate n 0 := by
    intro n
    induction n with
    | zero => rfl
    | succ n ih => rw [List.replicate_succ, List.replicate_succ]; simp [ih]
  cases hu with
  | preamble =>
    rw [show explode_unit (List.replicate 200 0) = List.replicate 200 [0] from by
      rw [explode_unit, show (200 : Nat) = 199 + 1 from rfl, List.replicate_succ,
        List.head?_cons, if_pos rfl, List.length_cons, List.length_replicate]]
    exact hrepl 200
  | media payload h => simp [explode_unit]
  | raster_ql n row h => simp [explode_unit]
  | raster_two c n row h => simp [explode_unit]
  | raster_pt lo hi row h => simp [explode_unit]
  | _ => simp [explode_unit]

/-- Concatenating the chunker's re-framed chunks restores the stream. -/
theorem explode_flatMap_flatten (units : List (List Nat)) (h : ∀ u ∈ units, GoodUnit u) :
    (units.flatMap explode_unit).flatten = units.flatten := by
  induction units with
  | nil => rfl
  | cons u us ih =>
    rw [List.flatMap_cons, List.flatten_append, explode_unit_flatten u (h u (by simp)),
      ih (fun v hv => h v (by simp [hv]))]
    rfl

/-- When the model does not support compression, the compression step of
`encode_image` appends nothing and leaves the state unchanged, whether or
not compression was requested and in both strict and lenient mode. -/
theorem compress_step_eq (caps : ModelCaps) (hcs : caps.compressionsupport = false)
    (st : RasterState) (c : Bool) :
    catch_unsupported st (do
      if c then add_compression caps st true else Except.ok (st, [])) = .ok (st, []) := by
  obtain ⟨st0, us0, hstep, hshape⟩ := compress_step_ok caps st c
  rcases hshape with ⟨rfl, rfl⟩ | ⟨_, hsup, _, _⟩
  · exact hstep
  · rw [hcs] at hsup
    exact absurd hsup (by simp)

/-- Encoding one image on a model without compression support is
independent of the `compress` option. -/
theorem encode_image_compress_eq (caps : ModelCaps) (hcs : caps.compressionsupport = false)
    (ls : LabelSpec) (opts : JobOptions) (st : RasterState) (im : CompositedImage) :
    encode_image caps ls opts st im =
      encode_image caps ls { opts with compress := false } st im := by
  unfold encode_image
  simp only [compress_step_eq caps hcs]

/-- The image loop on a model without compression support is independent of
the `compress` option. -/
theorem encode_images_compress_eq (caps : ModelCaps) (hcs : caps.compressionsupport = false)
    (ls : LabelSpec) (opts : JobOptions) :
    ∀ (images : List CompositedImage) (st : RasterState),
      encode_images caps ls opts st images =
        encode_images caps ls { opts with compress := false } st images := by
  intro images
  induction images with
  | nil => intro st; rfl
  | cons im ims ih =>
    intro st
    rw [encode_images, encode_images, encode_image_compress_eq caps hcs]
    cases encode_image caps ls { opts with compress := false } st im with
    | error e => rfl
    | ok r =>
      simp only [Bind.bind, Except.bind]
      rw [ih]

/-- **C1 counterexample**: the claim quantifies over arbitrary byte strings,
but for the empty row the compressor returns an empty payload and the
reader's decompression loop immediately indexes out of range (its Python
`while True` reads `rpl[0]` before any bounds check), raising `IndexError`
instead of returning the row. -/
theorem packbits_roundtrip_empty_fails :
    packbits_decode (packbits_encode []) ≠ some [] := by
  simp [packbits_encode, packbits_decode]

/-- **C1 (amended)**: for every *non-empty* raster row, decompressing the
compressed row with the reader's PackBits decoder yields exactly the
original row (including all-zero rows — one maximal run — and rows of
pairwise-distinct bytes — all literals). -/
theorem packbits_roundtrip (row : List Nat) (hrow : row ≠ []) :
    packbits_decode (packbits_encode row) = some row :=
  packbits_decode_encode_aux row.length row le_rfl hrow

/-- **C1 witness**: the round trip at a concrete row containing both a
maximal zero run and distinct literal bytes. -/
theorem packbits_roundtrip_witness :
    packbits_decode (packbits_encode [0, 0, 0, 0, 1, 2, 3]) = some [0, 0, 0, 0, 1, 2, 3] :=
  packbits_roundtrip [0, 0, 0, 0, 1, 2, 3] (by decide)

/-- **C8 counterexample**: the claim asserts that for threshold percentage 70
the computed threshold level is 90 (±1).  The code computes 76: the level is
neither in [89, 91] nor equal to 90. -/
theorem threshold_level_70_not_90 :
    LabelOptions.from_dict_threshold (some 70) = 76 ∧
      ¬(89 ≤ LabelOptions.from_dict_threshold (some 70) ∧
        LabelOptions.from_dict_threshold (some 70) ≤ 91) := by
  have h : LabelOptions.from_dict_threshold (some 70) = 76 := by
    unfold LabelOptions.from_dict_threshold threshold_level ratTrunc
    norm_num
  refine ⟨h, ?_⟩
  rw [h]
  norm_num

/-- **C8 (amended)**: the code truncates instead of rounding:
`threshold_level = clamp(0, 255, trunc((100 - pct)/100 * 255))`, and for the
input percentage 70 (also the default when the key is absent) the computed
threshold level equals 76. -/
theorem threshold_level_70_eq_76 :
    LabelOptions.from_dict_threshold (some 70) = 76 ∧
      LabelOptions.from_dict_threshold none = 76 ∧
      (∀ pct : ℚ, 0 ≤ pct → pct ≤ 100 →
        threshold_level pct = min 255 (max 0 ⌊(100 - pct) / 100 * 255⌋)) := by
  have h : threshold_level 70 = 76 := by
    unfold threshold_level ratTrunc
    norm_num
  refine ⟨h, h, ?_⟩
  intro pct h0 h100
  unfold threshold_level ratTrunc
  have hge : (0 : ℚ) ≤ (100 - pct) / 100 * 255 := by
    have hp : (0 : ℚ) ≤ 100 - pct := by linarith
    positivity
  rw [if_neg (not_lt.mpr hge)]

/-- The generator-level independence from the `compress` option on models
without compression support. -/
theorem generate_compress_eq (caps : ModelCaps) (hcs : caps.compressionsupport = false)
    (ls : LabelSpec) (opts : JobOptions) (st : RasterState)
    (images : List CompositedImage) :
    generate_instructions caps ls opts st images =
      generate_instructions caps ls { opts with compress := false } st images := by
  unfold generate_instructions
  simp only [encode_images_compress_eq caps hcs ls opts]

/-- **C2 counterexample**: for a concrete two-image two-color job, the
chunker does *not* re-yield exactly the appended instruction units: the
200-byte preamble appended by `add_invalidate` as one instruction is
re-yielded as 200 single-byte `preamble` chunks. -/
theorem chunker_boundaries_differ :
    chunker sample_job.units.flatten ≠ some sample_job.units := by
  have hgood := (generate_instructions_inv caps_QL820NWB label62_spec { red := true } {}
    sample_two_color_result.1 [sample_image, sample_image] sample_job rfl).1
  rw [chunker_flatten_good sample_job.units hgood]
  intro hcon
  have heq := Option.some.inj hcon
  have hne : sample_job.units.flatMap explode_unit ≠ sample_job.units := by decide
  exact hne heq

/-- **C2 (amended)**: for every job the encoder completes, the chunker
applied to the generated stream yields exactly the appended instruction
units in order and with identical byte boundaries, *except* that the
200-byte preamble is yielded as 200 single-byte preamble chunks
(`explode_unit`); the concatenation of the yielded chunks equals the
stream. -/
theorem chunker_reyields_encoder_units (caps : ModelCaps) (ls : LabelSpec)
    (opts : JobOptions) (st st' : RasterState) (images : List CompositedImage)
    (job : GeneratedJob)
    (h : generate_instructions caps ls opts st images = .ok (st', job)) :
    chunker job.units.flatten = some (job.units.flatMap explode_unit) ∧
      (job.units.flatMap explode_unit).flatten = job.units.flatten := by
  have hgood := (generate_instructions_inv _ _ _ _ _ _ _ h).1
  exact ⟨chunker_flatten_good _ hgood, explode_flatMap_flatten _ hgood⟩

/-- **C2 witness**: the framing round-trip at a concrete two-image
two-color job and at a concrete single-image monochrome job. -/
theorem chunker_reyields_encoder_units_witness :
    (chunker sample_job.units.flatten = some (sample_job.units.flatMap explode_unit) ∧
      (sample_job.units.flatMap explode_unit).flatten = sample_job.units.flatten) ∧
    (chunker sample_mono_job.units.flatten =
        some (sample_mono_job.units.flatMap explode_unit) ∧
      (sample_mono_job.units.flatMap explode_unit).flatten =
        sample_mono_job.units.flatten) :=
  ⟨chunker_reyields_encoder_units caps_QL820NWB label62_spec { red := true } {}
      sample_two_color_result.1 [sample_image, sample_image] sample_job rfl,
    chunker_reyields_encoder_units caps_QL570 label62_spec {} {}
      sample_mono_result.1 [sample_image] sample_mono_job rfl⟩

/-- **C4 counterexample**: requesting compression on the compression-less
QL-570 in strict mode does *not* make the job fail with
`BrotherQLUnsupportedCmd`: `generate_instructions` catches the exception
raised by `add_compression` and completes normally. -/
theorem strict_compress_does_not_raise :
    strict_compress_attempt.isOk = true := by
  rfl

/-- **C4 (amended)**: encoding a job for a model without compression
support while requesting `compress=true` yields, in both lenient and
strict mode, exactly the byte stream of the same job without compression;
no compression-toggle instruction (one starting with the opcode byte
`4D`) is emitted, and no exception escapes `generate_instructions` on
account of compression (strict-mode `add_compression` raises
`BrotherQLUnsupportedCmd`, but `generate_instructions` catches it). -/
theorem generate_unsupported_compression (caps : ModelCaps) (ls : LabelSpec)
    (opts : JobOptions) (st : RasterState) (images : List CompositedImage)
    (hcs : caps.compressionsupport = false) :
    generate_instructions caps ls opts st images =
      generate_instructions caps ls { opts with compress := false } st images ∧
    ∀ st' job, generate_instructions caps ls opts st images = .ok (st', job) →
      ∀ u ∈ job.units, u.head? ≠ some 0x4D := by
  refine ⟨generate_compress_eq caps hcs ls opts st images, ?_⟩
  intro st' job h
  exact (generate_instructions_inv _ _ _ _ _ _ _ h).2.2 (Or.inr hcs)

/-- **C4 witness**: the amended claim at the concrete strict-mode QL-570
job requesting compression. -/
theorem generate_unsupported_compression_witness :
    (generate_instructions caps_QL570 label62_spec { compress := true }
        { exception_on_warning := true } [sample_image] =
      generate_instructions caps_QL570 label62_spec
        { ({ compress := true } : JobOptions) with compress := false }
        { exception_on_warning := true } [sample_image]) ∧
    ∀ st' job, generate_instructions caps_QL570 label62_spec { compress := true }
        { exception_on_warning := true } [sample_image] = .ok (st', job) →
      ∀ u ∈ job.units, u.head? ≠ some 0x4D :=
  generate_unsupported_compression caps_QL570 label62_spec { compress := true }
    { exception_on_warning := true } [sample_image] rfl

/-- **C10**: every job `generate_instructions` completes — including
multi-image jobs — terminates every per-image instruction block with the
final-page print opcode `1A` (`add_print` is always called with the
default `last_page=True`), and the intermediate-page opcode `0C` is never
emitted as an instruction. -/
theorem generate_print_final_only (caps : ModelCaps) (ls : LabelSpec)
    (opts : JobOptions) (st st' : RasterState) (images : List CompositedImage)
    (job : GeneratedJob)
    (h : generate_instructions caps ls opts st images = .ok (st', job)) :
    (∀ u ∈ job.units, u ≠ [0x0C]) ∧
      ∀ b ∈ job.image_blocks, b.getLast? = some [0x1A] := by
  obtain ⟨hgood, hlast, _⟩ := generate_instructions_inv _ _ _ _ _ _ _ h
  exact ⟨fun u hu => goodUnit_ne_ff u (hgood u hu), hlast⟩

/-- **C10 witness**: the concrete two-image two-color job. -/
theorem generate_print_final_only_witness :
    (∀ u ∈ sample_job.units, u ≠ [0x0C]) ∧
      ∀ b ∈ sample_job.image_blocks, b.getLast? = some [0x1A] :=
  generate_print_final_only caps_QL820NWB label62_spec { red := true } {}
    sample_two_color_result.1 [sample_image, sample_image] sample_job rfl

/-- **C5** (code-bug evidence): when a blocking send reads a non-empty
chunk that fails the status-frame checks, the failure is not logged-and-
skipped: `PrinterResponse.from_bytes` raises `NameError`, the loop's
`except ValueError:` does not catch it, and the exception escapes `send`,
terminating the poll — both for a bad-header chunk and for a short chunk. -/
theorem send_parse_failure_propagates :
    send [] true [List.replicate 32 0] = .error .nameError ∧
      send [] true [[0x01]] = .error .nameError := by
  constructor <;> rfl

/-- **C6** (code-bug evidence): on a valid frame whose error byte 1 is
`0x03` (bits 0 and 1 set), `PrinterResponse.from_bytes` reports NO error
at all — `check_for_error` returns only the first matching member, and the
walrus `if error1 := ...` guard drops it because the bit-0 member is the
falsy `IntEnum` value 0 — while the legacy `interpret_response`
(`reader.py`) reports both active conditions. -/
theorem from_bytes_drops_simultaneous_errors :
    PrinterResponse.from_bytes frame_two_errors =
      .ok { status_type := 0, phase_type := 0, media_type := 0, media_width := 0,
            media_length := 0, errors := [] } ∧
      interpret_response_errors 0x03 0 =
        ["No media when printing", "End of media (die-cut size only)"] := by
  constructor <;> rfl

/-- **C7**: a blocking send whose transport write succeeds and whose every
read returns empty until the deadline elapses returns normally (no
exception) with outcome `SENT`, `did_print = false` and
`ready_for_next_job = false`. -/
theorem send_deadline_returns_sent (instructions : List Nat) (k : Nat) :
    send instructions true (List.replicate k []) =
      .ok { outcome := PrintOutcome.SENT } := by
  rw [send]
  simp only [Bool.not_true, if_neg (by simp : ¬(false = true))]
  induction k with
  | zero => rfl
  | succ k ih =>
    rw [List.replicate_succ, poll_loop]
    simpa using ih

end BrotherQL
